import Mathlib

/-!
Verification of the interaction/state engine of the multi-layer visualization
widget (`src/App.js`).

The embedding translates the relevant parts of the source:

* the data model (`Node`, `Layer`, the static `DEFAULT_CONFIG`);
* the layout engine `calculateResponsiveScale` (pairwise overlap pass,
  boundary pass, final clamp), with JS float arithmetic idealized as real
  arithmetic (`Math.sqrt` becomes `Real.sqrt`);
* the navigation state machine: `handleZoomProgress`,
  `handleSilentLayerTransition`, `handleReverseLayerTransition`,
  `handleNodeClick`, `handleHome`, `handleNavigate`, `handleCanvasClick`,
  and the window-event handlers, modeled as synchronous state
  transformers.  The `setTimeout`/`requestAnimationFrame` continuations of
  a handler are executed in order inside the same transformer, matching the
  single-threaded event-loop semantics; intermediate phases that a claim
  talks about (e.g. the state right after `setIsZooming(true)`) are exposed
  as separate definitions.
-/

namespace MLViz

/-- A content node: position in viewport percentages, an optional reference
to a child layer (`children`), and an optional own color (the configuration
never sets one, but the code reads `node.color`). -/
structure NodeData where
  id : String
  x : ℝ
  y : ℝ
  label : String
  children : Option String
  color : Option String := none


/-- One layer of the hierarchy. -/
structure LayerData where
  id : String
  name : String
  color : String
  nodes : List NodeData


/-- Canvas settings (only the background color matters to the engine). -/
structure CanvasData where
  backgroundColor : String


/-- The static configuration consumed at startup. -/
structure Config where
  canvas : CanvasData
  layers : List LayerData


/-- Viewport dimensions in pixels. -/
structure Viewport where
  width : ℝ
  height : ℝ

/-- Node "water cycle" of the root layer (`node-1`). -/
def waterCycleNode : NodeData :=
  { id := "node-1", x := 50, y := 50, label := "water cycle"
    children := some "layer-2" }

/-- Node "what is it ?" of layer 2 (`node-2-1`). -/
def whatIsItNode : NodeData :=
  { id := "node-2-1", x := 43, y := 50, label := "what is it ?"
    children := some "layer-3" }

/-- Node "4 layers" of layer 2 (`node-2-2`). -/
def fourLayersNode : NodeData :=
  { id := "node-2-2", x := 57, y := 50, label := "4 layers"
    children := some "layer-3" }

/-- `DEFAULT_CONFIG` from the source: three layers, colors and node
positions exactly as configured. -/
def DEFAULT_CONFIG : Config :=
  { canvas := { backgroundColor := "#0a0e27" }
    layers :=
      [ { id := "layer-1", name := "Root", color := "#2563eb"
          nodes := [waterCycleNode] }
      , { id := "layer-2", name := "Main Categories", color := "#7c3aed"
          nodes := [whatIsItNode, fourLayersNode] }
      , { id := "layer-3", name := "Details", color := "#34d399"
          nodes := [ { id := "node-3-1", x := 60, y := 50, label := "1. Evaporation"
                       children := none }
                   , { id := "node-3-2", x := 50, y := 65, label := "2. Condensation"
                       children := none }
                   , { id := "node-3-3", x := 40, y := 50, label := "3. Precipitation"
                       children := none }
                   , { id := "node-3-4", x := 50, y := 35, label := "4. Collection"
                       children := none } ] } ] }

/-! ## Layout engine: `calculateResponsiveScale` -/

/-- Pixel distance between the centers of two nodes, converting percentage
positions to pixel coordinates against the viewport (source: `const x1 =
(node1.x / 100) * width; ... Math.sqrt(dx * dx + dy * dy)`). -/
noncomputable def nodeDistance (v : Viewport) (node1 node2 : NodeData) : ℝ :=
  let x1 := node1.x / 100 * v.width
  let y1 := node1.y / 100 * v.height
  let x2 := node2.x / 100 * v.width
  let y2 := node2.y / 100 * v.height
  Real.sqrt ((x2 - x1) * (x2 - x1) + (y2 - y1) * (y2 - y1))

/-- One pairwise comparison of the overlap pass: if the two nodes are closer
than `baseSize * 1.2` (and not coincident) the pair imposes the candidate
scale `distance / minDistance`. -/
noncomputable def pairScale (v : Viewport) (baseSize : ℝ)
    (node1 node2 : NodeData) (minScale : ℝ) : ℝ :=
  let distance := nodeDistance v node1 node2
  let minDistance := baseSize * 1.2
  if distance < minDistance ∧ 0 < distance then
    min minScale (distance / minDistance)
  else minScale

/-- Inner loop of the pairwise pass: compare `node1` with every later node. -/
noncomputable def pairInner (v : Viewport) (baseSize : ℝ) (node1 : NodeData) :
    List NodeData → ℝ → ℝ
  | [], minScale => minScale
  | node2 :: rest, minScale =>
    pairInner v baseSize node1 rest (pairScale v baseSize node1 node2 minScale)

/-- Outer loop of the pairwise pass (`for i ... for j = i+1 ...`). -/
noncomputable def pairwisePass (v : Viewport) (baseSize : ℝ) :
    List NodeData → ℝ → ℝ
  | [], minScale => minScale
  | node :: rest, minScale =>
    pairwisePass v baseSize rest (pairInner v baseSize node rest minScale)

/-- Boundary pass for a single node: the four viewport edges are checked
against bounds computed from the node radius at the scale on entry; each
triggered check reduces the running scale with a 5% safety margin.  The
`requiredScale` of a later check uses the already-reduced running scale,
exactly as in the source. -/
noncomputable def boundaryStep (v : Viewport) (baseSize : ℝ)
    (node : NodeData) (minScale : ℝ) : ℝ :=
  let x := node.x / 100 * v.width
  let y := node.y / 100 * v.height
  let radius := baseSize * minScale / 2
  let leftBound := radius
  let rightBound := v.width - radius
  let topBound := radius
  let bottomBound := v.height - radius
  let m1 := if x < leftBound then
              min minScale (x / (baseSize / 2) * minScale * 0.95) else minScale
  let m2 := if x > rightBound then
              min m1 ((v.width - x) / (baseSize / 2) * m1 * 0.95) else m1
  let m3 := if y < topBound then
              min m2 (y / (baseSize / 2) * m2 * 0.95) else m2
  let m4 := if y > bottomBound then
              min m3 ((v.height - y) / (baseSize / 2) * m3 * 0.95) else m3
  m4

/-- Boundary pass over all nodes. -/
noncomputable def boundaryPass (v : Viewport) (baseSize : ℝ) :
    List NodeData → ℝ → ℝ
  | [], minScale => minScale
  | node :: rest, minScale =>
    boundaryPass v baseSize rest (boundaryStep v baseSize node minScale)

/-- The scale before the final clamp: pairwise pass starting at 1, then the
boundary pass. -/
noncomputable def rawScale (v : Viewport) (allNodes : List NodeData)
    (baseSize : ℝ) : ℝ :=
  boundaryPass v baseSize allNodes (pairwisePass v baseSize allNodes 1)

/-- `calculateResponsiveScale` from the source.  The JS parameters can be
`undefined` (`!viewport || !allNodes` guard), modeled with `Option`; the
final result is `Math.max(0.3, Math.min(1, minScale))`. -/
noncomputable def calculateResponsiveScale (viewport : Option Viewport)
    (allNodes : Option (List NodeData)) (baseSize : ℝ) : ℝ :=
  match viewport, allNodes with
  | some v, some nodes =>
    if nodes.length ≤ 1 then 1
    else max 0.3 (min 1 (rawScale v nodes baseSize))
  | _, _ => 1

/-! ## Navigation state machine -/

/-- One entry of the navigation history stack. -/
structure HistoryEntry where
  layerIndex : ℕ
  color : String
  name : String
  nodeColor : String
  clickedNode : Option NodeData := none

/-- The mutable React state of `App`, as one record.  `isZooming` is the
`isTransitioning` lock of the spec. -/
structure AppState where
  currentLayerIndex : ℕ
  direction : ℤ
  backgroundColor : String
  history : List HistoryEntry
  scale : ℝ
  panX : ℝ
  panY : ℝ
  isZooming : Bool
  zoomProgress : ℝ
  zoomingNode : Option NodeData
  silentTransition : Bool
  viewport : Viewport

/-- Fallback layer for out-of-range indexing (`config.layers[i]` is
`undefined` in JS; indices stay in range in reachable states). -/
def emptyLayer : LayerData := { id := "", name := "", color := "", nodes := [] }

/-- `config.layers[currentLayerIndex]`, the layer captured at render time. -/
def currentLayerOf (cfg : Config) (s : AppState) : LayerData :=
  cfg.layers.getD s.currentLayerIndex emptyLayer

/-- `config.layers.findIndex(l => l.id === id)`, as an `Option` (JS `-1`
becomes `none`). -/
def findLayerIndex (layers : List LayerData) (cid : String) : Option ℕ :=
  match layers with
  | [] => none
  | l :: rest =>
    if l.id = cid then some 0 else (findLayerIndex rest cid).map (· + 1)

/-- The history entry created at mount and by `handleHome`. -/
def rootEntry (cfg : Config) : HistoryEntry :=
  { layerIndex := 0
    color := cfg.canvas.backgroundColor
    name := (cfg.layers.getD 0 emptyLayer).name
    nodeColor := cfg.canvas.backgroundColor }

/-- State at mount: layer 0, zero progress, single-entry history. -/
def initialState (cfg : Config) (v : Viewport) : AppState :=
  { currentLayerIndex := 0
    direction := 0
    backgroundColor := cfg.canvas.backgroundColor
    history := [rootEntry cfg]
    scale := 1, panX := 0, panY := 0
    isZooming := false
    zoomProgress := 0
    zoomingNode := none
    silentTransition := false
    viewport := v }

/-- The dynamic `maxProgress` bound computed inside `handleZoomProgress`
from the viewport geometry and the current layer's nodes. -/
noncomputable def maxProgressAt (cfg : Config) (v : Viewport) (layerIndex : ℕ) : ℝ :=
  let maxNodeSize := min v.width v.height * 0.95 * 1.75
  let baseNodeSize : ℝ := 165
  let responsiveScale :=
    calculateResponsiveScale (some v)
      (some (cfg.layers.getD layerIndex emptyLayer).nodes) baseNodeSize
  let initialNodeSize := baseNodeSize * responsiveScale
  let maxScale := maxNodeSize / initialNodeSize
  (maxScale - 1) / (8 / 100)

/-- The clamped updated progress computed by the `setZoomProgress` updater:
`max(0, prev + deltaY * 0.15)`, clamped to 200 at the root layer and to
`maxProgress` at deeper layers. -/
noncomputable def newProgressFn (cfg : Config) (s : AppState) (deltaY : ℝ) : ℝ :=
  let zoomSensitivity : ℝ := 0.15
  let increment := deltaY * zoomSensitivity
  let p := max 0 (s.zoomProgress + increment)
  if 0 < s.currentLayerIndex then min (maxProgressAt cfg s.viewport s.currentLayerIndex) p
  else min 200 p

/-- The forward transition threshold: 84 at the root layer, 90 elsewhere. -/
def transitionThreshold (s : AppState) : ℝ :=
  if s.currentLayerIndex = 0 then 84 else 90

/-- `handleSilentLayerTransition(node)`: the instant layer swap fired on a
forward threshold crossing.  Resolves the target layer from
`node.children`; no-op on a terminal node or a dangling reference.  Resets
`zoomProgress`/`zoomingNode`, swaps the layer, sets the background color to
`node.color || currentLayer.color`, resets pan/scale, and appends a history
entry unless the top of history already points at the target layer.  The
`silentTransition` flag is raised and lowered again by the 50ms timeout
executed at the end of the transformer, so it ends `false`. -/
noncomputable def handleSilentLayerTransition (cfg : Config) (s : AppState)
    (node : NodeData) : AppState :=
  match node.children with
  | none => s
  | some cid =>
    match findLayerIndex cfg.layers cid with
    | none => s
    | some targetLayerIndex =>
      let nodeColor := node.color.getD (currentLayerOf cfg s).color
      let entry : HistoryEntry :=
        { layerIndex := targetLayerIndex
          color := nodeColor
          name := (cfg.layers.getD targetLayerIndex emptyLayer).name
          nodeColor := nodeColor
          clickedNode := some node }
      { s with
        zoomProgress := 0
        zoomingNode := none
        silentTransition := false
        currentLayerIndex := targetLayerIndex
        backgroundColor := nodeColor
        scale := 1, panX := 0, panY := 0
        history :=
          match s.history.getLast? with
          | some last =>
            if last.layerIndex = targetLayerIndex then s.history
            else s.history ++ [entry]
          | none => s.history ++ [entry] }

/-- Immediate phase of the reverse transition (before the timeouts): raise
the `isTransitioning` lock, set direction to −1 and the background to the
previous history entry's color. -/
def reverseStart (s : AppState) (prevEntry : HistoryEntry) : AppState :=
  { s with isZooming := true, direction := -1, backgroundColor := prevEntry.color }

/-- 50ms phase of the reverse transition: swap the layer back, reset
pan/scale, pop the last history entry. -/
def reverseSwap (s : AppState) (prevEntry : HistoryEntry) : AppState :=
  { s with
    currentLayerIndex := prevEntry.layerIndex
    scale := 1, panX := 0, panY := 0
    history := s.history.dropLast }

/-- 750ms phase of the reverse transition: release the lock. -/
def reverseEnd (s : AppState) : AppState := { s with isZooming := false }

/-- `handleReverseLayerTransition()`: animated zoom-out to the previous
history entry; no-op at the root layer or with a single-entry history. -/
def handleReverseLayerTransition (cfg : Config) (s : AppState) : AppState :=
  if s.currentLayerIndex = 0 ∨ s.history.length ≤ 1 then s
  else
    match s.history.get? (s.history.length - 2) with
    | none => s
    | some prevEntry => reverseEnd (reverseSwap (reverseStart s prevEntry) prevEntry)

/-- `handleZoomProgress(node, deltaY)`, with all scheduled continuations
executed in order.  Returns the resulting state together with a flag that
records whether the forward (silent) transition fired on this call. -/
noncomputable def handleZoomProgress (cfg : Config) (s : AppState)
    (node : NodeData) (deltaY : ℝ) : AppState × Bool :=
  if s.isZooming then (s, false)
  else if 0 < deltaY ∧ node.children = none then (s, false)
  else if deltaY < 0 ∧ s.zoomProgress = 0 ∧ 0 < s.currentLayerIndex then
    (handleReverseLayerTransition cfg s, false)
  else
    let s1 := if 0 < deltaY ∧ s.zoomProgress = 0 then { s with zoomingNode := some node } else s
    let newProgress := newProgressFn cfg s deltaY
    let s2 := { s1 with zoomProgress := newProgress }
    if transitionThreshold s ≤ newProgress ∧ s.zoomProgress < transitionThreshold s ∧
        node.children ≠ none then
      (handleSilentLayerTransition cfg s2 node, true)
    else if newProgress = 0 ∧ 0 < s.zoomProgress ∧ 0 < s.currentLayerIndex then
      (handleReverseLayerTransition cfg { s2 with zoomingNode := none }, false)
    else (s2, false)

/-- `handleCanvasClick()`: a click anywhere off a node resets an active
progressive zoom. -/
noncomputable def handleCanvasClick (s : AppState) : AppState :=
  if 0 < s.zoomProgress then { s with zoomProgress := 0, zoomingNode := none } else s

/-- `handleNodeClick(node)`: explicit click-driven animated transition into
the node's child layer, with both timeouts executed. -/
def handleNodeClick (cfg : Config) (s : AppState) (node : NodeData) : AppState :=
  if node.children = none ∨ s.isZooming then s
  else
    match node.children with
    | none => s
    | some cid =>
      match findLayerIndex cfg.layers cid with
      | none => s
      | some targetLayerIndex =>
        let nodeColor := node.color.getD (currentLayerOf cfg s).color
        { s with
          zoomProgress := 0
          zoomingNode := none
          isZooming := false   -- raised, then released by the 750ms timeout
          direction := 1
          backgroundColor := nodeColor
          currentLayerIndex := targetLayerIndex
          scale := 1, panX := 0, panY := 0
          history := s.history ++
            [ { layerIndex := targetLayerIndex
                color := nodeColor
                name := (cfg.layers.getD targetLayerIndex emptyLayer).name
                nodeColor := nodeColor
                clickedNode := some node } ] }

/-- `handleHome()`: reset to the root layer with a fresh single-entry
history and all zoom state cleared. -/
def handleHome (cfg : Config) (s : AppState) : AppState :=
  if s.currentLayerIndex = 0 ∨ s.isZooming then s
  else
    { s with
      isZooming := false   -- raised, then released by the 750ms timeout
      direction := -1
      backgroundColor := cfg.canvas.backgroundColor
      currentLayerIndex := 0
      scale := 1, panX := 0, panY := 0
      zoomProgress := 0
      zoomingNode := none
      history := [rootEntry cfg] }

/-- `handleNavigate(index)`: breadcrumb jump.  When `index` is out of range
the JS code throws on `target.color` after `setIsZooming(true)` and
`setDirection(...)` already ran, so only those two updates survive. -/
def handleNavigate (cfg : Config) (s : AppState) (index : ℕ) : AppState :=
  if (index : ℤ) = (s.history.length : ℤ) - 1 ∨ s.isZooming then s
  else
    let dir : ℤ := if (index : ℤ) < (s.history.length : ℤ) - 1 then -1 else 1
    match s.history.get? index with
    | none => { s with isZooming := true, direction := dir }
    | some target =>
      { s with
        isZooming := false   -- raised, then released by the 750ms timeout
        direction := dir
        backgroundColor := target.color
        currentLayerIndex := target.layerIndex
        scale := 1, panX := 0, panY := 0
        zoomProgress := if target.layerIndex = 0 then 0 else s.zoomProgress
        zoomingNode := if target.layerIndex = 0 then none else s.zoomingNode
        history := s.history.take (index + 1) }

/-- Handler of the window `triggerReverseTransition` event (right-click /
long-press with no local zoom progress). -/
def reverseEvent (cfg : Config) (s : AppState) : AppState :=
  if s.isZooming = false ∧ 0 < s.currentLayerIndex then
    handleReverseLayerTransition cfg s
  else s

/-- Handler of the window `nodeGoBack` event; duplicates the reverse
transition inline, with its own guard. -/
def goBackEvent (cfg : Config) (s : AppState) : AppState :=
  if 1 < s.history.length ∧ s.isZooming = false ∧ s.currentLayerIndex ≠ 0 then
    match s.history.get? (s.history.length - 2) with
    | none => s
    | some prevEntry => reverseEnd (reverseSwap (reverseStart s prevEntry) prevEntry)
  else s

/-- One dispatched interaction event, as a transition relation between
states. -/
inductive Step (cfg : Config) : AppState → AppState → Prop
  | zoom (s : AppState) (node : NodeData) (deltaY : ℝ) :
      Step cfg s (handleZoomProgress cfg s node deltaY).1
  | click (s : AppState) (node : NodeData) :
      Step cfg s (handleNodeClick cfg s node)
  | reverse (s : AppState) : Step cfg s (reverseEvent cfg s)
  | goBack (s : AppState) : Step cfg s (goBackEvent cfg s)
  | home (s : AppState) : Step cfg s (handleHome cfg s)
  | navigate (s : AppState) (index : ℕ) :
      Step cfg s (handleNavigate cfg s index)
  | canvas (s : AppState) : Step cfg s (handleCanvasClick s)

/-- States reachable from the mount state by dispatched interaction events. -/
def Reachable (cfg : Config) (v : Viewport) (s : AppState) : Prop :=
  Relation.ReflTransGen (Step cfg) (initialState cfg v) s

/-- Folding a list of `handleZoomProgress` calls (node, deltaY) over a
state. -/
noncomputable def applyZoomCalls (cfg : Config) (s : AppState) :
    List (NodeData × ℝ) → AppState
  | [] => s
  | c :: rest => applyZoomCalls cfg (handleZoomProgress cfg s c.1 c.2).1 rest

/-! ## Concrete inputs used in witnesses and counterexamples -/

/-- A plain unlabeled node at (50%, 50%). -/
def cexNodeA : NodeData := { id := "a", x := 50, y := 50, label := "", children := none }

/-- A plain unlabeled node at (51%, 50%), one pixel from `cexNodeA` on a
100×100 viewport. -/
def cexNodeB : NodeData := { id := "b", x := 51, y := 50, label := "", children := none }

/-- Upper node of a vertical pair at (50%, 40%). -/
def vpairA : NodeData := { id := "A", x := 50, y := 40, label := "", children := none }

/-- Lower node of a vertical pair at (50%, 60%). -/
def vpairB : NodeData := { id := "B", x := 50, y := 60, label := "", children := none }

/-- A node near the left edge (25/6 % ≈ 4.17%). -/
noncomputable def vedgeE : NodeData := { id := "E", x := 25 / 6, y := 50, label := "", children := none }

/-- The state after the silent transition of Scenario A: layer 1,
two-entry history, background inherited from the root layer's color. -/
def scenarioAFinal (cfg : Config) (v : Viewport) : AppState :=
  { currentLayerIndex := 1
    direction := 0
    backgroundColor := "#2563eb"
    history := [rootEntry cfg,
      { layerIndex := 1, color := "#2563eb", name := "Main Categories"
        nodeColor := "#2563eb", clickedNode := some waterCycleNode }]
    scale := 1, panX := 0, panY := 0
    isZooming := false
    zoomProgress := 0
    zoomingNode := none
    silentTransition := false
    viewport := v }

/-- The mount state with an in-flight root zoom of progress `p` on the
"water cycle" node. -/
def rootZoomState (cfg : Config) (v : Viewport) (p : ℝ) : AppState :=
  { initialState cfg v with zoomProgress := p, zoomingNode := some waterCycleNode }

/-- A state on layer 1 with a two-entry history and an in-flight zoom of
progress 50 on `whatIsItNode`, used to probe the reverse transition. -/
def cexReverseState (v : Viewport) : AppState :=
  { currentLayerIndex := 1
    direction := 0
    backgroundColor := "#7c3aed"
    history := [rootEntry DEFAULT_CONFIG,
      { layerIndex := 1, color := "#7c3aed", name := "Main Categories"
        nodeColor := "#7c3aed", clickedNode := some waterCycleNode }]
    scale := 1, panX := 0, panY := 0
    isZooming := false
    zoomProgress := 50
    zoomingNode := some whatIsItNode
    silentTransition := false
    viewport := v }

/-! ## Basic lemmas about the layout engine -/

theorem pairScale_le (v : Viewport) (b : ℝ) (n1 n2 : NodeData) (m : ℝ) :
    pairScale v b n1 n2 m ≤ m := by
  simp only [pairScale]
  split_ifs with h
  · exact min_le_left _ _
  · exact le_rfl

theorem pairInner_le (v : Viewport) (b : ℝ) (n1 : NodeData) :
    ∀ (l : List NodeData) (m : ℝ), pairInner v b n1 l m ≤ m := by
  intro l
  induction l with
  | nil => intro m; exact le_rfl
  | cons n2 rest ih =>
    intro m
    exact le_trans (ih (pairScale v b n1 n2 m)) (pairScale_le v b n1 n2 m)

theorem pairwisePass_le (v : Viewport) (b : ℝ) :
    ∀ (l : List NodeData) (m : ℝ), pairwisePass v b l m ≤ m := by
  intro l
  induction l with
  | nil => intro m; exact le_rfl
  | cons n rest ih =>
    intro m
    exact le_trans (ih (pairInner v b n rest m)) (pairInner_le v b n rest m)

theorem boundaryStep_le (v : Viewport) (b : ℝ) (node : NodeData) (m : ℝ) :
    boundaryStep v b node m ≤ m := by
  simp only [boundaryStep]
  split_ifs <;>
    first
    | exact le_rfl
    | exact le_trans (min_le_left _ _) le_rfl
    | exact le_trans (min_le_left _ _) (min_le_left _ _)
    | exact le_trans (min_le_left _ _) (le_trans (min_le_left _ _) (min_le_left _ _))
    | exact le_trans (min_le_left _ _)
        (le_trans (min_le_left _ _) (le_trans (min_le_left _ _) (min_le_left _ _)))

theorem boundaryPass_le (v : Viewport) (b : ℝ) :
    ∀ (l : List NodeData) (m : ℝ), boundaryPass v b l m ≤ m := by
  intro l
  induction l with
  | nil => intro m; exact le_rfl
  | cons n rest ih =>
    intro m
    exact le_trans (ih (boundaryStep v b n m)) (boundaryStep_le v b n m)

theorem rawScale_le_one (v : Viewport) (l : List NodeData) (b : ℝ) :
    rawScale v l b ≤ 1 :=
  le_trans (boundaryPass_le v b l (pairwisePass v b l 1)) (pairwisePass_le v b l 1)

theorem scale_mem_Icc (viewport : Option Viewport)
    (allNodes : Option (List NodeData)) (baseSize : ℝ) :
    (0.3 : ℝ) ≤ calculateResponsiveScale viewport allNodes baseSize ∧
    calculateResponsiveScale viewport allNodes baseSize ≤ 1 := by
  match viewport, allNodes with
  | none, none => simp only [calculateResponsiveScale]; norm_num
  | none, some l => simp only [calculateResponsiveScale]; norm_num
  | some v, none => simp only [calculateResponsiveScale]; norm_num
  | some v, some nodes =>
    simp only [calculateResponsiveScale]
    by_cases h : nodes.length ≤ 1
    · rw [if_pos h]; norm_num
    · rw [if_neg h]
      constructor
      · exact le_max_left _ _
      · exact max_le (by norm_num) (min_le_left _ _)

/-- Claim C6: for every viewport, node list and base size the computed
scale lies in the closed interval `[0.3, 1]`, and it is exactly `1` when
the node list has at most one element or the viewport/node inputs are
unavailable. -/
theorem C6_scale_bounds :
    (∀ (viewport : Option Viewport) (allNodes : Option (List NodeData)) (baseSize : ℝ),
      (0.3 : ℝ) ≤ calculateResponsiveScale viewport allNodes baseSize ∧
      calculateResponsiveScale viewport allNodes baseSize ≤ 1) ∧
    (∀ (v : Viewport) (nodes : List NodeData) (baseSize : ℝ), nodes.length ≤ 1 →
      calculateResponsiveScale (some v) (some nodes) baseSize = 1) ∧
    (∀ (allNodes : Option (List NodeData)) (baseSize : ℝ),
      calculateResponsiveScale none allNodes baseSize = 1) ∧
    (∀ (viewport : Option Viewport) (baseSize : ℝ),
      calculateResponsiveScale viewport none baseSize = 1) := by
  refine ⟨scale_mem_Icc, ?_, ?_, ?_⟩
  · intro v nodes baseSize h
    simp only [calculateResponsiveScale]
    rw [if_pos h]
  · intro allNodes baseSize
    match allNodes with
    | none => rfl
    | some l => rfl
  · intro viewport baseSize
    match viewport with
    | none => rfl
    | some v => rfl

/-- Witness for C6 at a concrete input: a single-node list on a 100×100
viewport, where the scale is 1 and inside the bounds. -/
theorem C6_scale_bounds_witness :
    ([({ id := "node-1", x := 50, y := 50, label := "water cycle",
         children := some "layer-2" } : NodeData)].length ≤ 1) ∧
    calculateResponsiveScale (some ⟨100, 100⟩)
      (some [{ id := "node-1", x := 50, y := 50, label := "water cycle",
               children := some "layer-2" }]) 165 = 1 :=
  ⟨by simp, C6_scale_bounds.2.1 ⟨100, 100⟩ _ 165 (by simp)⟩

theorem nodeDistance_nonneg (v : Viewport) (n1 n2 : NodeData) :
    0 ≤ nodeDistance v n1 n2 := by
  simp only [nodeDistance]
  exact Real.sqrt_nonneg _

/-- The radicand of `nodeDistance`, factored by viewport dimension. -/
theorem nodeDistance_eq (v : Viewport) (n1 n2 : NodeData) :
    nodeDistance v n1 n2 =
      Real.sqrt (((n2.x - n1.x) / 100) ^ 2 * v.width ^ 2 +
        ((n2.y - n1.y) / 100) ^ 2 * v.height ^ 2) := by
  simp only [nodeDistance]
  congr 1
  ring

theorem pairInner_le_ratio (v : Viewport) (b : ℝ) (n1 : NodeData) :
    ∀ (l : List NodeData) (m : ℝ) (n2 : NodeData), n2 ∈ l →
      nodeDistance v n1 n2 < b * 1.2 → 0 < nodeDistance v n1 n2 →
      pairInner v b n1 l m ≤ nodeDistance v n1 n2 / (b * 1.2) := by
  intro l
  induction l with
  | nil => intro m n2 hmem; exact absurd hmem (List.not_mem_nil n2)
  | cons a rest ih =>
    intro m n2 hmem hlt hpos
    rcases List.mem_cons.mp hmem with heq | hmem'
    · subst heq
      have hps : pairScale v b n1 n2 m ≤ nodeDistance v n1 n2 / (b * 1.2) := by
        simp only [pairScale]
        rw [if_pos ⟨hlt, hpos⟩]
        exact min_le_right _ _
      exact le_trans (pairInner_le v b n1 rest _) hps
    · exact ih _ n2 hmem' hlt hpos

theorem pairwisePass_le_ratio (v : Viewport) (b : ℝ) :
    ∀ (l : List NodeData) (m : ℝ) (n1 n2 : NodeData), [n1, n2].Sublist l →
      nodeDistance v n1 n2 < b * 1.2 → 0 < nodeDistance v n1 n2 →
      pairwisePass v b l m ≤ nodeDistance v n1 n2 / (b * 1.2) := by
  intro l
  induction l with
  | nil => intro m n1 n2 hsub; cases hsub
  | cons a rest ih =>
    intro m n1 n2 hsub hlt hpos
    cases hsub with
    | cons _ hsub' =>
      exact ih _ n1 n2 hsub' hlt hpos
    | cons₂ _ hsub' =>
      have hmem : n2 ∈ rest := hsub'.subset (List.mem_singleton.mpr rfl)
      exact le_trans (pairwisePass_le v b rest _)
        (pairInner_le_ratio v b a rest m n2 hmem hlt hpos)

/-- Claim C5 (amended): after applying the computed scale, every ordered
pair of distinct nodes is separated by at least `baseSize * scale * 1.2`,
unless the pair is coincident (distance 0) or the pre-clamp scale fell
below the `0.3` legibility floor — in the latter case the clamp can
reintroduce overlap. -/
theorem C5_no_overlap (v : Viewport) (nodes : List NodeData) (baseSize : ℝ)
    (hB : 0 ≤ baseSize) (n1 n2 : NodeData) (hsub : [n1, n2].Sublist nodes) :
    nodeDistance v n1 n2 = 0 ∨
    baseSize * calculateResponsiveScale (some v) (some nodes) baseSize * 1.2 ≤
      nodeDistance v n1 n2 ∨
    rawScale v nodes baseSize < 0.3 := by
  by_cases hraw : rawScale v nodes baseSize < 0.3
  · exact Or.inr (Or.inr hraw)
  push_neg at hraw
  by_cases hd0 : nodeDistance v n1 n2 = 0
  · exact Or.inl hd0
  have hdpos : 0 < nodeDistance v n1 n2 :=
    lt_of_le_of_ne (nodeDistance_nonneg v n1 n2) (Ne.symm hd0)
  refine Or.inr (Or.inl ?_)
  have hlen : ¬ nodes.length ≤ 1 := by
    have h2 : 2 ≤ nodes.length := by
      have := hsub.length_le
      simpa using this
    omega
  have hscale : calculateResponsiveScale (some v) (some nodes) baseSize =
      min 1 (rawScale v nodes baseSize) := by
    simp only [calculateResponsiveScale]
    rw [if_neg hlen]
    exact max_eq_right (le_min (by norm_num) hraw)
  rw [hscale]
  by_cases hdM : nodeDistance v n1 n2 < baseSize * 1.2
  · -- the pair qualified in the overlap pass, so the raw scale is at most
    -- its candidate ratio
    have hM : 0 < baseSize * 1.2 := lt_trans hdpos hdM
    have h1 : rawScale v nodes baseSize ≤ nodeDistance v n1 n2 / (baseSize * 1.2) :=
      le_trans (boundaryPass_le v baseSize nodes _)
        (pairwisePass_le_ratio v baseSize nodes 1 n1 n2 hsub hdM hdpos)
    have h2 : min 1 (rawScale v nodes baseSize) ≤
        nodeDistance v n1 n2 / (baseSize * 1.2) :=
      le_trans (min_le_right _ _) h1
    calc baseSize * min 1 (rawScale v nodes baseSize) * 1.2
        = min 1 (rawScale v nodes baseSize) * (baseSize * 1.2) := by ring
      _ ≤ nodeDistance v n1 n2 / (baseSize * 1.2) * (baseSize * 1.2) := by
          exact mul_le_mul_of_nonneg_right h2 (le_of_lt hM)
      _ = nodeDistance v n1 n2 := div_mul_cancel₀ _ (ne_of_gt hM)
  · -- the pair never qualified: its distance already exceeds the unscaled
    -- minimum separation
    push_neg at hdM
    have hM0 : 0 ≤ baseSize * 1.2 := by nlinarith
    calc baseSize * min 1 (rawScale v nodes baseSize) * 1.2
        = min 1 (rawScale v nodes baseSize) * (baseSize * 1.2) := by ring
      _ ≤ 1 * (baseSize * 1.2) :=
          mul_le_mul_of_nonneg_right (min_le_left _ _) hM0
      _ = baseSize * 1.2 := one_mul _
      _ ≤ nodeDistance v n1 n2 := hdM

/-- Witness for C5 at a concrete input: the two layer-2 nodes on a
1000×1000 viewport with base size 165. -/
theorem C5_no_overlap_witness :
    (0 : ℝ) ≤ 165 ∧
    (nodeDistance ⟨1000, 1000⟩
        { id := "node-2-1", x := 43, y := 50, label := "what is it ?",
          children := some "layer-3" }
        { id := "node-2-2", x := 57, y := 50, label := "4 layers",
          children := some "layer-3" } = 0 ∨
      165 * calculateResponsiveScale (some ⟨1000, 1000⟩)
          (some [ { id := "node-2-1", x := 43, y := 50, label := "what is it ?",
                    children := some "layer-3" }
                , { id := "node-2-2", x := 57, y := 50, label := "4 layers",
                    children := some "layer-3" } ]) 165 * 1.2 ≤
        nodeDistance ⟨1000, 1000⟩
          { id := "node-2-1", x := 43, y := 50, label := "what is it ?",
            children := some "layer-3" }
          { id := "node-2-2", x := 57, y := 50, label := "4 layers",
            children := some "layer-3" } ∨
      rawScale ⟨1000, 1000⟩
          [ { id := "node-2-1", x := 43, y := 50, label := "what is it ?",
              children := some "layer-3" }
          , { id := "node-2-2", x := 57, y := 50, label := "4 layers",
              children := some "layer-3" } ] 165 < 0.3) :=
  ⟨by norm_num,
   C5_no_overlap ⟨1000, 1000⟩ _ 165 (by norm_num) _ _ (List.Sublist.refl _)⟩

/-! ## Square-root evaluation helpers -/

theorem sqrt_eval {a b : ℝ} (hb : 0 ≤ b) (h : a = b ^ 2) : Real.sqrt a = b := by
  rw [h]
  exact Real.sqrt_sq hb

theorem le_sqrt_of_sq_le {a b : ℝ} (ha : 0 ≤ a) (h : a ^ 2 ≤ b) :
    a ≤ Real.sqrt b := by
  calc a = Real.sqrt (a ^ 2) := (Real.sqrt_sq ha).symm
    _ ≤ Real.sqrt b := Real.sqrt_le_sqrt h

/-! ## Monotonicity of the pairwise pass in the viewport -/

theorem nodeDistance_mono (v1 v2 : Viewport) (n1 n2 : NodeData)
    (hw0 : 0 ≤ v1.width) (hh0 : 0 ≤ v1.height)
    (hw : v1.width ≤ v2.width) (hh : v1.height ≤ v2.height) :
    nodeDistance v1 n1 n2 ≤ nodeDistance v2 n1 n2 := by
  rw [nodeDistance_eq, nodeDistance_eq]
  apply Real.sqrt_le_sqrt
  have hx : v1.width ^ 2 ≤ v2.width ^ 2 := pow_le_pow_left₀ hw0 hw 2
  have hy : v1.height ^ 2 ≤ v2.height ^ 2 := pow_le_pow_left₀ hh0 hh 2
  nlinarith [sq_nonneg ((n2.x - n1.x) / 100), sq_nonneg ((n2.y - n1.y) / 100),
    mul_le_mul_of_nonneg_left hx (sq_nonneg ((n2.x - n1.x) / 100)),
    mul_le_mul_of_nonneg_left hy (sq_nonneg ((n2.y - n1.y) / 100))]

theorem nodeDistance_pos_mono (v1 v2 : Viewport) (n1 n2 : NodeData)
    (hw0 : 0 < v1.width) (hh0 : 0 < v1.height)
    (hpos : 0 < nodeDistance v2 n1 n2) : 0 < nodeDistance v1 n1 n2 := by
  rw [nodeDistance_eq] at hpos ⊢
  rw [Real.sqrt_pos] at hpos ⊢
  by_cases ha : n2.x - n1.x = 0
  · by_cases hb : n2.y - n1.y = 0
    · rw [ha, hb] at hpos
      norm_num at hpos
    · have h1 : 0 < ((n2.y - n1.y) / 100) ^ 2 * v1.height ^ 2 := by positivity
      nlinarith [sq_nonneg ((n2.x - n1.x) / 100), sq_nonneg v1.width]
  · have h1 : 0 < ((n2.x - n1.x) / 100) ^ 2 * v1.width ^ 2 := by positivity
    nlinarith [sq_nonneg ((n2.y - n1.y) / 100), sq_nonneg v1.height]

theorem pairScale_mono (v1 v2 : Viewport) (b : ℝ) (n1 n2 : NodeData)
    (m1 m2 : ℝ) (hw0 : 0 < v1.width) (hh0 : 0 < v1.height)
    (hw : v1.width ≤ v2.width) (hh : v1.height ≤ v2.height) (hm : m1 ≤ m2) :
    pairScale v1 b n1 n2 m1 ≤ pairScale v2 b n1 n2 m2 := by
  have hd : nodeDistance v1 n1 n2 ≤ nodeDistance v2 n1 n2 :=
    nodeDistance_mono v1 v2 n1 n2 (le_of_lt hw0) (le_of_lt hh0) hw hh
  simp only [pairScale]
  by_cases hq1 : nodeDistance v1 n1 n2 < b * 1.2 ∧ 0 < nodeDistance v1 n1 n2
  · rw [if_pos hq1]
    by_cases hq2 : nodeDistance v2 n1 n2 < b * 1.2 ∧ 0 < nodeDistance v2 n1 n2
    · rw [if_pos hq2]
      have hMpos : 0 < b * 1.2 := lt_of_le_of_lt (le_of_lt hq1.2) hq1.1
      exact min_le_min hm ((div_le_div_iff_of_pos_right hMpos).mpr hd)
    · rw [if_neg hq2]
      exact le_trans (min_le_left _ _) hm
  · rw [if_neg hq1]
    by_cases hq2 : nodeDistance v2 n1 n2 < b * 1.2 ∧ 0 < nodeDistance v2 n1 n2
    · exact absurd ⟨lt_of_le_of_lt hd hq2.1,
        nodeDistance_pos_mono v1 v2 n1 n2 hw0 hh0 hq2.2⟩ hq1
    · rw [if_neg hq2]
      exact hm

theorem pairInner_mono (v1 v2 : Viewport) (b : ℝ) (n1 : NodeData)
    (hw0 : 0 < v1.width) (hh0 : 0 < v1.height)
    (hw : v1.width ≤ v2.width) (hh : v1.height ≤ v2.height) :
    ∀ (l : List NodeData) (m1 m2 : ℝ), m1 ≤ m2 →
      pairInner v1 b n1 l m1 ≤ pairInner v2 b n1 l m2 := by
  intro l
  induction l with
  | nil => intro m1 m2 hm; exact hm
  | cons n2 rest ih =>
    intro m1 m2 hm
    exact ih _ _ (pairScale_mono v1 v2 b n1 n2 m1 m2 hw0 hh0 hw hh hm)

theorem pairwisePass_mono (v1 v2 : Viewport) (b : ℝ)
    (hw0 : 0 < v1.width) (hh0 : 0 < v1.height)
    (hw : v1.width ≤ v2.width) (hh : v1.height ≤ v2.height) :
    ∀ (l : List NodeData) (m1 m2 : ℝ), m1 ≤ m2 →
      pairwisePass v1 b l m1 ≤ pairwisePass v2 b l m2 := by
  intro l
  induction l with
  | nil => intro m1 m2 hm; exact hm
  | cons n rest ih =>
    intro m1 m2 hm
    exact ih _ _ (pairInner_mono v1 v2 b n hw0 hh0 hw hh rest m1 m2 hm)

/-- Claim C7 (amended): the computed scale is monotone in the viewport
dimensions provided the edge-clipping boundary pass leaves the pairwise
scale unchanged at both viewports (the boundary pass with its 0.95 safety
factor can otherwise break monotonicity). -/
theorem C7_scale_monotone (v1 v2 : Viewport) (nodes : List NodeData)
    (baseSize : ℝ) (hw0 : 0 < v1.width) (hh0 : 0 < v1.height)
    (hw : v1.width ≤ v2.width) (hh : v1.height ≤ v2.height)
    (hb1 : rawScale v1 nodes baseSize = pairwisePass v1 baseSize nodes 1)
    (hb2 : rawScale v2 nodes baseSize = pairwisePass v2 baseSize nodes 1) :
    calculateResponsiveScale (some v1) (some nodes) baseSize ≤
      calculateResponsiveScale (some v2) (some nodes) baseSize := by
  simp only [calculateResponsiveScale]
  by_cases hlen : nodes.length ≤ 1
  · rw [if_pos hlen, if_pos hlen]
  · rw [if_neg hlen, if_neg hlen, hb1, hb2]
    exact max_le_max le_rfl (min_le_min le_rfl
      (pairwisePass_mono v1 v2 baseSize hw0 hh0 hw hh nodes 1 1 le_rfl))

/-- Counterexample to C7 as stated: on the node set {(50%,40%), (50%,60%),
(25/6%,50%)} with base size 100, growing the viewport from 600×300 to
600×480 makes the left-edge check fire (the pairwise scale rose from 1/2 to
4/5, enlarging the radius), and its 0.95 safety factor drops the final
scale from 0.5 to 0.38. -/
theorem C7_scale_monotone_cex :
    (600 : ℝ) ≤ 600 ∧ (300 : ℝ) ≤ 480 ∧
    calculateResponsiveScale (some ⟨600, 480⟩) (some [vpairA, vpairB, vedgeE]) 100 <
      calculateResponsiveScale (some ⟨600, 300⟩) (some [vpairA, vpairB, vedgeE]) 100 := by
  have sAB_sm : nodeDistance ⟨600, 300⟩ vpairA vpairB = 60 := by
    rw [nodeDistance_eq]
    norm_num [vpairA, vpairB]
    exact sqrt_eval (by norm_num) (by norm_num)
  have sAE_sm : nodeDistance ⟨600, 300⟩ vpairA vedgeE = Real.sqrt 76525 := by
    rw [nodeDistance_eq]
    norm_num [vpairA, vedgeE]
  have sBE_sm : nodeDistance ⟨600, 300⟩ vpairB vedgeE = Real.sqrt 76525 := by
    rw [nodeDistance_eq]
    norm_num [vpairB, vedgeE]
  have hferm : (120 : ℝ) ≤ Real.sqrt 76525 :=
    le_sqrt_of_sq_le (by norm_num) (by norm_num)
  have noAE_sm : ¬ (nodeDistance ⟨600, 300⟩ vpairA vedgeE < 100 * 1.2 ∧
      0 < nodeDistance ⟨600, 300⟩ vpairA vedgeE) := by
    rw [sAE_sm]
    rintro ⟨h, -⟩
    norm_num at h
    linarith
  have noBE_sm : ¬ (nodeDistance ⟨600, 300⟩ vpairB vedgeE < 100 * 1.2 ∧
      0 < nodeDistance ⟨600, 300⟩ vpairB vedgeE) := by
    rw [sBE_sm]
    rintro ⟨h, -⟩
    norm_num at h
    linarith
  have e1_sm : pairScale ⟨600, 300⟩ 100 vpairA vpairB 1 = 1 / 2 := by
    simp only [pairScale]
    rw [sAB_sm, if_pos (by norm_num : (60 : ℝ) < 100 * 1.2 ∧ (0 : ℝ) < 60)]
    norm_num [min_def]
  have e2_sm : pairScale ⟨600, 300⟩ 100 vpairA vedgeE (1 / 2) = 1 / 2 := by
    simp only [pairScale]
    rw [if_neg noAE_sm]
  have e3_sm : pairScale ⟨600, 300⟩ 100 vpairB vedgeE (1 / 2) = 1 / 2 := by
    simp only [pairScale]
    rw [if_neg noBE_sm]
  have pw_sm : pairwisePass ⟨600, 300⟩ 100 [vpairA, vpairB, vedgeE] 1 = 1 / 2 := by
    simp only [pairwisePass, pairInner]
    rw [e1_sm, e2_sm, e3_sm]
  have bA_sm : boundaryStep ⟨600, 300⟩ 100 vpairA (1 / 2) = 1 / 2 := by
    simp only [boundaryStep, vpairA]
    norm_num
  have bB_sm : boundaryStep ⟨600, 300⟩ 100 vpairB (1 / 2) = 1 / 2 := by
    simp only [boundaryStep, vpairB]
    norm_num
  have bE_sm : boundaryStep ⟨600, 300⟩ 100 vedgeE (1 / 2) = 1 / 2 := by
    simp only [boundaryStep, vedgeE]
    norm_num
  have scale_sm : calculateResponsiveScale (some ⟨600, 300⟩)
      (some [vpairA, vpairB, vedgeE]) 100 = 1 / 2 := by
    simp only [calculateResponsiveScale]
    rw [if_neg (by simp)]
    simp only [rawScale]
    rw [pw_sm]
    simp only [boundaryPass]
    rw [bA_sm, bB_sm, bE_sm]
    norm_num [min_def, max_def]
  have sAB_lg : nodeDistance ⟨600, 480⟩ vpairA vpairB = 96 := by
    rw [nodeDistance_eq]
    norm_num [vpairA, vpairB]
    exact sqrt_eval (by norm_num) (by norm_num)
  have sAE_lg : nodeDistance ⟨600, 480⟩ vpairA vedgeE = Real.sqrt 77929 := by
    rw [nodeDistance_eq]
    norm_num [vpairA, vedgeE]
  have sBE_lg : nodeDistance ⟨600, 480⟩ vpairB vedgeE = Real.sqrt 77929 := by
    rw [nodeDistance_eq]
    norm_num [vpairB, vedgeE]
  have hferm' : (120 : ℝ) ≤ Real.sqrt 77929 :=
    le_sqrt_of_sq_le (by norm_num) (by norm_num)
  have noAE_lg : ¬ (nodeDistance ⟨600, 480⟩ vpairA vedgeE < 100 * 1.2 ∧
      0 < nodeDistance ⟨600, 480⟩ vpairA vedgeE) := by
    rw [sAE_lg]
    rintro ⟨h, -⟩
    norm_num at h
    linarith
  have noBE_lg : ¬ (nodeDistance ⟨600, 480⟩ vpairB vedgeE < 100 * 1.2 ∧
      0 < nodeDistance ⟨600, 480⟩ vpairB vedgeE) := by
    rw [sBE_lg]
    rintro ⟨h, -⟩
    norm_num at h
    linarith
  have e1_lg : pairScale ⟨600, 480⟩ 100 vpairA vpairB 1 = 4 / 5 := by
    simp only [pairScale]
    rw [sAB_lg, if_pos (by norm_num : (96 : ℝ) < 100 * 1.2 ∧ (0 : ℝ) < 96)]
    norm_num [min_def]
  have e2_lg : pairScale ⟨600, 480⟩ 100 vpairA vedgeE (4 / 5) = 4 / 5 := by
    simp only [pairScale]
    rw [if_neg noAE_lg]
  have e3_lg : pairScale ⟨600, 480⟩ 100 vpairB vedgeE (4 / 5) = 4 / 5 := by
    simp only [pairScale]
    rw [if_neg noBE_lg]
  have pw_lg : pairwisePass ⟨600, 480⟩ 100 [vpairA, vpairB, vedgeE] 1 = 4 / 5 := by
    simp only [pairwisePass, pairInner]
    rw [e1_lg, e2_lg, e3_lg]
  have bA_lg : boundaryStep ⟨600, 480⟩ 100 vpairA (4 / 5) = 4 / 5 := by
    simp only [boundaryStep, vpairA]
    norm_num
  have bB_lg : boundaryStep ⟨600, 480⟩ 100 vpairB (4 / 5) = 4 / 5 := by
    simp only [boundaryStep, vpairB]
    norm_num
  have bE_lg : boundaryStep ⟨600, 480⟩ 100 vedgeE (4 / 5) = 19 / 50 := by
    simp only [boundaryStep, vedgeE]
    norm_num [min_def]
  have scale_lg : calculateResponsiveScale (some ⟨600, 480⟩)
      (some [vpairA, vpairB, vedgeE]) 100 = 19 / 50 := by
    simp only [calculateResponsiveScale]
    rw [if_neg (by simp)]
    simp only [rawScale]
    rw [pw_lg]
    simp only [boundaryPass]
    rw [bA_lg, bB_lg, bE_lg]
    norm_num [min_def, max_def]
  refine ⟨le_rfl, by norm_num, ?_⟩
  rw [scale_sm, scale_lg]
  norm_num

/-- Witness for C7 (amended) at a concrete input: a single node, viewports
600×300 and 600×480, where the boundary pass is the identity. -/
theorem C7_scale_monotone_witness :
    (0 : ℝ) < 600 ∧ (0 : ℝ) < 300 ∧ (600 : ℝ) ≤ 600 ∧ (300 : ℝ) ≤ 480 ∧
    rawScale ⟨600, 300⟩ [cexNodeA] 100 = pairwisePass ⟨600, 300⟩ 100 [cexNodeA] 1 ∧
    rawScale ⟨600, 480⟩ [cexNodeA] 100 = pairwisePass ⟨600, 480⟩ 100 [cexNodeA] 1 ∧
    calculateResponsiveScale (some ⟨600, 300⟩) (some [cexNodeA]) 100 ≤
      calculateResponsiveScale (some ⟨600, 480⟩) (some [cexNodeA]) 100 := by
  have hb1 : rawScale ⟨600, 300⟩ [cexNodeA] 100 =
      pairwisePass ⟨600, 300⟩ 100 [cexNodeA] 1 := by
    simp only [rawScale, pairwisePass, pairInner, boundaryPass, boundaryStep, cexNodeA]
    norm_num
  have hb2 : rawScale ⟨600, 480⟩ [cexNodeA] 100 =
      pairwisePass ⟨600, 480⟩ 100 [cexNodeA] 1 := by
    simp only [rawScale, pairwisePass, pairInner, boundaryPass, boundaryStep, cexNodeA]
    norm_num
  exact ⟨by norm_num, by norm_num, by norm_num, by norm_num, hb1, hb2,
    C7_scale_monotone ⟨600, 300⟩ ⟨600, 480⟩ [cexNodeA] 100
      (by norm_num) (by norm_num) (by norm_num) (by norm_num) hb1 hb2⟩

/-- Counterexample to C5 as stated: two nodes one pixel apart on a 100×100
viewport.  The pre-clamp scale 1/198 is lifted to the 0.3 floor, and the
clamped scale demands a separation of 59.4 pixels against an actual
distance of 1. -/
theorem C5_no_overlap_cex :
    nodeDistance ⟨100, 100⟩ cexNodeA cexNodeB ≠ 0 ∧
    nodeDistance ⟨100, 100⟩ cexNodeA cexNodeB <
      165 * calculateResponsiveScale (some ⟨100, 100⟩)
        (some [cexNodeA, cexNodeB]) 165 * 1.2 := by
  have hd : nodeDistance ⟨100, 100⟩ cexNodeA cexNodeB = 1 := by
    rw [nodeDistance_eq]
    norm_num [cexNodeA, cexNodeB]
  have e1 : pairScale ⟨100, 100⟩ 165 cexNodeA cexNodeB 1 = 1 / 198 := by
    simp only [pairScale]
    rw [hd, if_pos (show (1 : ℝ) < 165 * 1.2 ∧ (0 : ℝ) < 1 by norm_num)]
    norm_num [min_def]
  have pw : pairwisePass ⟨100, 100⟩ 165 [cexNodeA, cexNodeB] 1 = 1 / 198 := by
    simp only [pairwisePass, pairInner]
    rw [e1]
  have bA : boundaryStep ⟨100, 100⟩ 165 cexNodeA (1 / 198) = 1 / 198 := by
    simp only [boundaryStep, cexNodeA]
    norm_num
  have bB : boundaryStep ⟨100, 100⟩ 165 cexNodeB (1 / 198) = 1 / 198 := by
    simp only [boundaryStep, cexNodeB]
    norm_num
  have hscale : calculateResponsiveScale (some ⟨100, 100⟩)
      (some [cexNodeA, cexNodeB]) 165 = 0.3 := by
    simp only [calculateResponsiveScale]
    rw [if_neg (by simp)]
    simp only [rawScale]
    rw [pw]
    simp only [boundaryPass]
    rw [bA, bB]
    norm_num [min_def, max_def]
  rw [hd, hscale]
  norm_num

/-! ## Lemmas about the state machine handlers -/

theorem reverse_preserves_zoom (cfg : Config) (s : AppState) :
    (handleReverseLayerTransition cfg s).zoomProgress = s.zoomProgress ∧
    (handleReverseLayerTransition cfg s).zoomingNode = s.zoomingNode ∧
    (handleReverseLayerTransition cfg s).viewport = s.viewport := by
  unfold handleReverseLayerTransition
  split_ifs with h
  · exact ⟨rfl, rfl, rfl⟩
  · match hget : s.history.get? (s.history.length - 2) with
    | none => exact ⟨rfl, rfl, rfl⟩
    | some prevEntry => exact ⟨rfl, rfl, rfl⟩

/-- Claim C2 (amended): the reverse transition raises `isTransitioning`,
sets the background to the previous history entry's color, pops the last
history entry, restores `currentLayerIndex`, resets pan/scale, and finally
clears `isTransitioning` — but it leaves `zoomProgress` and `zoomingNode`
untouched (they are already 0/none in the zoom-out flow that usually
triggers it). -/
theorem C2_reverse_transition (cfg : Config) (s : AppState)
    (prevEntry : HistoryEntry) (hidx : s.currentLayerIndex ≠ 0)
    (hlen : 1 < s.history.length)
    (hget : s.history.get? (s.history.length - 2) = some prevEntry) :
    (reverseStart s prevEntry).isZooming = true ∧
    (reverseStart s prevEntry).backgroundColor = prevEntry.color ∧
    (handleReverseLayerTransition cfg s).history = s.history.dropLast ∧
    (handleReverseLayerTransition cfg s).currentLayerIndex = prevEntry.layerIndex ∧
    (handleReverseLayerTransition cfg s).scale = 1 ∧
    (handleReverseLayerTransition cfg s).panX = 0 ∧
    (handleReverseLayerTransition cfg s).panY = 0 ∧
    (handleReverseLayerTransition cfg s).isZooming = false ∧
    (handleReverseLayerTransition cfg s).zoomProgress = s.zoomProgress ∧
    (handleReverseLayerTransition cfg s).zoomingNode = s.zoomingNode := by
  have hguard : ¬ (s.currentLayerIndex = 0 ∨ s.history.length ≤ 1) := by
    push_neg
    exact ⟨hidx, hlen⟩
  unfold handleReverseLayerTransition
  rw [if_neg hguard, hget]
  exact ⟨rfl, rfl, rfl, rfl, rfl, rfl, rfl, rfl, rfl, rfl⟩

/-- Counterexample to C2 as stated: on a layer-1 state with an in-flight
zoom of progress 50 on a different node, the full reverse transition leaves
`zoomProgress` at 50 and `zoomingNode` set — it resets neither. -/
theorem C2_reverse_transition_cex :
    (handleReverseLayerTransition DEFAULT_CONFIG
      (cexReverseState ⟨1000, 800⟩)).zoomProgress = 50 ∧
    (50 : ℝ) ≠ 0 ∧
    (handleReverseLayerTransition DEFAULT_CONFIG
      (cexReverseState ⟨1000, 800⟩)).zoomingNode = some whatIsItNode ∧
    some whatIsItNode ≠ (none : Option NodeData) := by
  refine ⟨?_, by norm_num, ?_, by simp⟩
  · exact (reverse_preserves_zoom DEFAULT_CONFIG (cexReverseState ⟨1000, 800⟩)).1
  · exact (reverse_preserves_zoom DEFAULT_CONFIG (cexReverseState ⟨1000, 800⟩)).2.1

/-- Witness for C2 (amended) on a concrete layer-1 state with a two-entry
history. -/
theorem C2_reverse_transition_witness :
    (cexReverseState ⟨1000, 800⟩).currentLayerIndex ≠ 0 ∧
    1 < (cexReverseState ⟨1000, 800⟩).history.length ∧
    (handleReverseLayerTransition DEFAULT_CONFIG
      (cexReverseState ⟨1000, 800⟩)).history =
        (cexReverseState ⟨1000, 800⟩).history.dropLast ∧
    (handleReverseLayerTransition DEFAULT_CONFIG
      (cexReverseState ⟨1000, 800⟩)).currentLayerIndex =
        (rootEntry DEFAULT_CONFIG).layerIndex ∧
    (handleReverseLayerTransition DEFAULT_CONFIG
      (cexReverseState ⟨1000, 800⟩)).isZooming = false := by
  have h := C2_reverse_transition DEFAULT_CONFIG (cexReverseState ⟨1000, 800⟩)
    (rootEntry DEFAULT_CONFIG) (by simp [cexReverseState])
    (by simp [cexReverseState]) rfl
  exact ⟨by simp [cexReverseState], by simp [cexReverseState],
    h.2.2.1, h.2.2.2.1, h.2.2.2.2.2.2.2.1⟩

/-- Claim C1 (amended): the instant/silent transition resets `zoomProgress`
to 0 and `zoomingNode` to none while swapping to the resolved target
layer — it does not keep them at their in-flight values. -/
theorem C1_silent_resets (cfg : Config) (s : AppState) (node : NodeData)
    (cid : String) (target : ℕ) (hc : node.children = some cid)
    (ht : findLayerIndex cfg.layers cid = some target) :
    (handleSilentLayerTransition cfg s node).zoomProgress = 0 ∧
    (handleSilentLayerTransition cfg s node).zoomingNode = none ∧
    (handleSilentLayerTransition cfg s node).currentLayerIndex = target := by
  unfold handleSilentLayerTransition
  simp [hc, ht]

/-- Witness for C1 (amended): the "water cycle" node resolves to layer
index 1 and the silent transition resets the zoom state. -/
theorem C1_silent_resets_witness :
    waterCycleNode.children = some "layer-2" ∧
    findLayerIndex DEFAULT_CONFIG.layers "layer-2" = some 1 ∧
    (handleSilentLayerTransition DEFAULT_CONFIG
      (rootZoomState DEFAULT_CONFIG ⟨1000, 800⟩ 90) waterCycleNode).zoomProgress = 0 ∧
    (handleSilentLayerTransition DEFAULT_CONFIG
      (rootZoomState DEFAULT_CONFIG ⟨1000, 800⟩ 90) waterCycleNode).zoomingNode = none := by
  have h := C1_silent_resets DEFAULT_CONFIG
    (rootZoomState DEFAULT_CONFIG ⟨1000, 800⟩ 90) waterCycleNode "layer-2" 1
    rfl (by simp [findLayerIndex, DEFAULT_CONFIG])
  exact ⟨rfl, by simp [findLayerIndex, DEFAULT_CONFIG], h.1, h.2.1⟩

/-! ## Evaluation of root-layer zoom runs (Scenario A) -/

/-- A root-layer zoom call that stays strictly below the 84 threshold just
accumulates progress. -/
theorem zoomStay (v : Viewport) (p d : ℝ) (hp : 0 < p) (hd : 0 < d)
    (h84 : p + d * 0.15 < 84) :
    handleZoomProgress DEFAULT_CONFIG (rootZoomState DEFAULT_CONFIG v p)
      waterCycleNode d =
    (rootZoomState DEFAULT_CONFIG v (p + d * 0.15), false) := by
  have hnp : newProgressFn DEFAULT_CONFIG (rootZoomState DEFAULT_CONFIG v p) d =
      p + d * 0.15 := by
    simp only [newProgressFn, rootZoomState, initialState]
    norm_num
    rw [max_eq_right (by nlinarith), min_eq_right (by nlinarith)]
  simp only [handleZoomProgress, rootZoomState, initialState, waterCycleNode,
    transitionThreshold] at hnp ⊢
  rw [hnp]
  norm_num
  rw [if_neg (by rintro ⟨-, h⟩; simp at h),
    if_neg (by rintro ⟨h, -⟩; nlinarith)]

/-- The first root-layer zoom call from the mount state records the zooming
node and accumulates progress, provided it stays below the threshold. -/
theorem zoomFirst (v : Viewport) (d : ℝ) (hd : 0 < d) (h84 : d * 0.15 < 84) :
    handleZoomProgress DEFAULT_CONFIG (initialState DEFAULT_CONFIG v)
      waterCycleNode d =
    (rootZoomState DEFAULT_CONFIG v (d * 0.15), false) := by
  have hnp : newProgressFn DEFAULT_CONFIG (initialState DEFAULT_CONFIG v) d =
      d * 0.15 := by
    simp only [newProgressFn, initialState]
    norm_num
    rw [max_eq_right (by nlinarith), min_eq_right (by nlinarith)]
  simp only [handleZoomProgress, rootZoomState, initialState, waterCycleNode,
    transitionThreshold] at hnp ⊢
  rw [hnp]
  norm_num
  rw [if_neg (by rintro ⟨-, h⟩; simp at h),
    if_pos hd,
    if_neg (by rintro ⟨h, -⟩; nlinarith)]

/-- A root-layer zoom call crossing the 84 threshold performs the silent
transition into layer 1 and reports it. -/
theorem zoomCross (s : AppState) (v : Viewport) (δ : ℝ)
    (hiz : s.isZooming = false) (hidx : s.currentLayerIndex = 0)
    (hhist : s.history = [rootEntry DEFAULT_CONFIG])
    (hdir : s.direction = 0) (hview : s.viewport = v)
    (hp0 : 0 ≤ s.zoomProgress) (hp : s.zoomProgress < 84) (hδ : 0 < δ)
    (hc : 84 ≤ s.zoomProgress + δ * 0.15) :
    handleZoomProgress DEFAULT_CONFIG s waterCycleNode δ =
      (scenarioAFinal DEFAULT_CONFIG v, true) := by
  have hnp : 84 ≤ newProgressFn DEFAULT_CONFIG s δ := by
    simp only [newProgressFn, hidx]
    rw [if_neg (lt_irrefl 0)]
    refine le_min (by norm_num) (le_max_of_le_right ?_)
    linarith
  have hth : transitionThreshold s = 84 := by
    simp [transitionThreshold, hidx]
  have hch : (0 < δ ∧ waterCycleNode.children = none) = False :=
    eq_false (by rintro ⟨-, h⟩; simp [waterCycleNode] at h)
  have hd0 : (δ < 0 ∧ s.zoomProgress = 0 ∧ 0 < s.currentLayerIndex) = False :=
    eq_false (by rintro ⟨h, -⟩; linarith)
  have hcr : (84 ≤ newProgressFn DEFAULT_CONFIG s δ ∧ s.zoomProgress < 84 ∧
      ¬ waterCycleNode.children = none) = True :=
    eq_true ⟨hnp, hp, by simp [waterCycleNode]⟩
  by_cases hz : s.zoomProgress = 0
  · have hs1 : (0 < δ ∧ s.zoomProgress = 0) = True := eq_true ⟨hδ, hz⟩
    simp only [handleZoomProgress, hiz, Bool.false_eq_true, if_false, hth,
      hch, hd0, hs1, hcr, if_true]
    simp [handleSilentLayerTransition, waterCycleNode, findLayerIndex, currentLayerOf,
      DEFAULT_CONFIG, scenarioAFinal, rootEntry, emptyLayer, hhist, hidx,
      hdir, hview, hiz]
  · have hs1 : (0 < δ ∧ s.zoomProgress = 0) = False :=
      eq_false (by rintro ⟨-, h⟩; exact hz h)
    simp only [handleZoomProgress, hiz, Bool.false_eq_true, if_false, hth,
      hch, hd0, hs1, hcr, if_true]
    simp [handleSilentLayerTransition, waterCycleNode, findLayerIndex, currentLayerOf,
      DEFAULT_CONFIG, scenarioAFinal, rootEntry, emptyLayer, hhist, hidx,
      hdir, hview, hiz]

/-- Accumulating a list of positive sub-threshold root-zoom calls. -/
theorem zoomAccumList (v : Viewport) :
    ∀ (ds : List ℝ) (p : ℝ), 0 < p → (∀ d ∈ ds, 0 < d) →
      p + ds.sum * 0.15 < 84 →
      applyZoomCalls DEFAULT_CONFIG (rootZoomState DEFAULT_CONFIG v p)
        (ds.map fun d => (waterCycleNode, d)) =
      rootZoomState DEFAULT_CONFIG v (p + ds.sum * 0.15) := by
  intro ds
  induction ds with
  | nil =>
    intro p hp hpos hlt
    simp only [List.map_nil, applyZoomCalls, List.sum_nil]
    norm_num
  | cons d rest ih =>
    intro p hp hpos hlt
    rw [List.sum_cons] at hlt
    have hd : 0 < d := hpos d (by simp)
    have hrest : ∀ x ∈ rest, 0 < x := fun x hx => hpos x (by simp [hx])
    have hsumn : 0 ≤ rest.sum := List.sum_nonneg fun x hx => le_of_lt (hrest x hx)
    have hstep : p + d * 0.15 < 84 := by nlinarith
    simp only [List.map_cons, applyZoomCalls]
    rw [zoomStay v p d hp hd hstep]
    rw [ih (p + d * 0.15) (by nlinarith) hrest (by nlinarith)]
    congr 1
    rw [List.sum_cons]
    ring

theorem applyZoomCalls_append (cfg : Config) :
    ∀ (l1 l2 : List (NodeData × ℝ)) (s : AppState),
      applyZoomCalls cfg s (l1 ++ l2) =
        applyZoomCalls cfg (applyZoomCalls cfg s l1) l2 := by
  intro l1
  induction l1 with
  | nil => intro l2 s; rfl
  | cons c rest ih =>
    intro l2 s
    simp only [List.cons_append, applyZoomCalls]
    exact ih l2 _

/-- A full Scenario-A run: positive deltas accumulating below the
threshold, then one call crossing it, lands in `scenarioAFinal`. -/
theorem scenarioA_run (v : Viewport) (ds : List ℝ) (δ : ℝ)
    (hpos : ∀ d ∈ ds, 0 < d) (hδ : 0 < δ) (hsum : ds.sum * 0.15 < 84)
    (hcross : 84 ≤ (ds.sum + δ) * 0.15) :
    applyZoomCalls DEFAULT_CONFIG (initialState DEFAULT_CONFIG v)
      ((ds ++ [δ]).map fun d => (waterCycleNode, d)) =
    scenarioAFinal DEFAULT_CONFIG v := by
  cases ds with
  | nil =>
    rw [List.sum_nil] at hcross
    simp only [List.nil_append, List.map_cons, List.map_nil, applyZoomCalls]
    rw [zoomCross (initialState DEFAULT_CONFIG v) v δ rfl rfl rfl rfl rfl
      le_rfl (by norm_num [initialState]) hδ (by norm_num [initialState]; nlinarith)]
  | cons d0 rest =>
    rw [List.sum_cons] at hsum hcross
    have hd0 : 0 < d0 := hpos d0 (by simp)
    have hrest : ∀ x ∈ rest, 0 < x := fun x hx => hpos x (by simp [hx])
    have hsum0 : 0 ≤ rest.sum := List.sum_nonneg fun x hx => le_of_lt (hrest x hx)
    simp only [List.cons_append, List.map_cons, List.map_append, List.map_nil,
      applyZoomCalls]
    rw [zoomFirst v d0 hd0 (by nlinarith)]
    simp only [List.append_eq, List.map_append, List.map_cons, List.map_nil]
    rw [applyZoomCalls_append]
    rw [zoomAccumList v rest (d0 * 0.15) (by nlinarith) hrest (by nlinarith)]
    simp only [applyZoomCalls]
    rw [zoomCross (rootZoomState DEFAULT_CONFIG v (d0 * 0.15 + rest.sum * 0.15))
      v δ rfl rfl rfl rfl rfl (by simp [rootZoomState, initialState]; nlinarith)
      (by simp [rootZoomState, initialState]; nlinarith) hδ
      (by simp [rootZoomState, initialState]; nlinarith)]

/-- Claim C3 (amended): Scenario A — from the mount state, positive zoom
deltas on "water cycle" whose accumulated progress first crosses 84 on the
last call yield layer index 1 and a two-entry history, but the background
color becomes `"#2563eb"`, the color of the root layer containing the node
(the node carries no own color, and the fallback is the source layer's
color, not `"#7c3aed"` of the layer being opened). -/
theorem C3_scenarioA (v : Viewport) (ds : List ℝ) (δ : ℝ)
    (hpos : ∀ d ∈ ds, 0 < d) (hδ : 0 < δ) (hsum : ds.sum * 0.15 < 84)
    (hcross : 84 ≤ (ds.sum + δ) * 0.15) :
    (applyZoomCalls DEFAULT_CONFIG (initialState DEFAULT_CONFIG v)
      ((ds ++ [δ]).map fun d => (waterCycleNode, d))).currentLayerIndex = 1 ∧
    (applyZoomCalls DEFAULT_CONFIG (initialState DEFAULT_CONFIG v)
      ((ds ++ [δ]).map fun d => (waterCycleNode, d))).history.length = 2 ∧
    (applyZoomCalls DEFAULT_CONFIG (initialState DEFAULT_CONFIG v)
      ((ds ++ [δ]).map fun d => (waterCycleNode, d))).backgroundColor =
      "#2563eb" := by
  rw [scenarioA_run v ds δ hpos hδ hsum hcross]
  exact ⟨rfl, rfl, rfl⟩

/-- Witness for C3 (amended): eleven wheel ticks of delta 50 (progress
82.5), then a twelfth tick crossing the threshold. -/
theorem C3_scenarioA_witness :
    (∀ d ∈ List.replicate 11 (50 : ℝ), 0 < d) ∧
    (List.replicate 11 (50 : ℝ)).sum * 0.15 < 84 ∧
    84 ≤ ((List.replicate 11 (50 : ℝ)).sum + 50) * 0.15 ∧
    (applyZoomCalls DEFAULT_CONFIG (initialState DEFAULT_CONFIG ⟨1000, 800⟩)
      ((List.replicate 11 (50 : ℝ) ++ [50]).map
        fun d => (waterCycleNode, d))).currentLayerIndex = 1 := by
  have hpos : ∀ d ∈ List.replicate 11 (50 : ℝ), 0 < d := by
    intro d hd
    rw [List.eq_of_mem_replicate hd]
    norm_num
  have hsum : (List.replicate 11 (50 : ℝ)).sum = 550 := by
    simp
    norm_num
  refine ⟨hpos, by rw [hsum]; norm_num, by rw [hsum]; norm_num, ?_⟩
  exact (C3_scenarioA ⟨1000, 800⟩ (List.replicate 11 (50 : ℝ)) 50 hpos
    (by norm_num) (by rw [hsum]; norm_num) (by rw [hsum]; norm_num)).1

/-- Counterexample to C3 as stated: the concrete twelve-tick run of the
spec reaches layer 1 with a two-entry history, but the background ends as
`"#2563eb"`, not the expected `"#7c3aed"`. -/
theorem C3_scenarioA_cex :
    (applyZoomCalls DEFAULT_CONFIG (initialState DEFAULT_CONFIG ⟨1000, 800⟩)
      (List.replicate 12 (waterCycleNode, (50 : ℝ)))).backgroundColor =
      "#2563eb" ∧
    "#2563eb" ≠ "#7c3aed" ∧
    (applyZoomCalls DEFAULT_CONFIG (initialState DEFAULT_CONFIG ⟨1000, 800⟩)
      (List.replicate 12 (waterCycleNode, (50 : ℝ)))).currentLayerIndex = 1 ∧
    (applyZoomCalls DEFAULT_CONFIG (initialState DEFAULT_CONFIG ⟨1000, 800⟩)
      (List.replicate 12 (waterCycleNode, (50 : ℝ)))).history.length = 2 := by
  have hlist : List.replicate 12 (waterCycleNode, (50 : ℝ)) =
      (List.replicate 11 (50 : ℝ) ++ [50]).map fun d => (waterCycleNode, d) := by
    rw [List.map_append, List.map_replicate]
    simp only [List.map_cons, List.map_nil]
    rw [← List.replicate_succ']
  have hpos : ∀ d ∈ List.replicate 11 (50 : ℝ), 0 < d := by
    intro d hd
    rw [List.eq_of_mem_replicate hd]
    norm_num
  have hsum : (List.replicate 11 (50 : ℝ)).sum = 550 := by
    simp
    norm_num
  rw [hlist, scenarioA_run ⟨1000, 800⟩ (List.replicate 11 (50 : ℝ)) 50 hpos
    (by norm_num) (by rw [hsum]; norm_num) (by rw [hsum]; norm_num)]
  exact ⟨rfl, by decide, rfl, rfl⟩

/-- Counterexample to C1 as stated: a forward threshold crossing from the
mount state (in-flight progress 90) comes out of the silent transition with
`zoomProgress` 0 and `zoomingNode` cleared — neither is left unchanged. -/
theorem C1_silent_resets_cex :
    (handleZoomProgress DEFAULT_CONFIG (initialState DEFAULT_CONFIG ⟨1000, 800⟩)
        waterCycleNode 600).2 = true ∧
    newProgressFn DEFAULT_CONFIG (initialState DEFAULT_CONFIG ⟨1000, 800⟩) 600 = 90 ∧
    (handleZoomProgress DEFAULT_CONFIG (initialState DEFAULT_CONFIG ⟨1000, 800⟩)
        waterCycleNode 600).1.zoomProgress = 0 ∧
    (90 : ℝ) ≠ 0 ∧
    (handleZoomProgress DEFAULT_CONFIG (initialState DEFAULT_CONFIG ⟨1000, 800⟩)
        waterCycleNode 600).1.zoomingNode = none := by
  have h := zoomCross (initialState DEFAULT_CONFIG ⟨1000, 800⟩) ⟨1000, 800⟩ 600
    rfl rfl rfl rfl rfl le_rfl (by norm_num [initialState]) (by norm_num)
    (by norm_num [initialState])
  rw [h]
  refine ⟨rfl, ?_, rfl, by norm_num, rfl⟩
  simp only [newProgressFn, initialState]
  norm_num

/-! ## Zoom bound invariant (C4) -/

theorem silent_fields (cfg : Config) (s : AppState) (node : NodeData) :
    handleSilentLayerTransition cfg s node = s ∨
    ((handleSilentLayerTransition cfg s node).zoomProgress = 0 ∧
     (handleSilentLayerTransition cfg s node).viewport = s.viewport) := by
  cases hc : node.children with
  | none =>
    left
    unfold handleSilentLayerTransition
    simp [hc]
  | some cid =>
    cases hf : findLayerIndex cfg.layers cid with
    | none =>
      left
      unfold handleSilentLayerTransition
      simp [hc, hf]
    | some t =>
      right
      unfold handleSilentLayerTransition
      simp [hc, hf]

theorem newProgressFn_nonneg (cfg : Config) (v : Viewport) (s : AppState) (δ : ℝ)
    (hview : s.viewport = v) (H : ∀ i, 0 ≤ maxProgressAt cfg v i) :
    0 ≤ newProgressFn cfg s δ := by
  unfold newProgressFn
  split_ifs with h
  · exact le_min (hview ▸ H s.currentLayerIndex) (le_max_left 0 _)
  · exact le_min (by norm_num) (le_max_left 0 _)

theorem newProgressFn_le_200 (cfg : Config) (s : AppState) (δ : ℝ)
    (hidx : s.currentLayerIndex = 0) : newProgressFn cfg s δ ≤ 200 := by
  unfold newProgressFn
  rw [if_neg (by rw [hidx]; exact lt_irrefl 0)]
  exact min_le_left _ _

theorem newProgressFn_le_cap (cfg : Config) (s : AppState) (δ : ℝ)
    (hidx : s.currentLayerIndex ≠ 0) :
    newProgressFn cfg s δ ≤ maxProgressAt cfg s.viewport s.currentLayerIndex := by
  unfold newProgressFn
  rw [if_pos (Nat.pos_of_ne_zero hidx)]
  exact min_le_left _ _

theorem zoomStep_inv (cfg : Config) (v : Viewport)
    (H : ∀ i, 0 ≤ maxProgressAt cfg v i) (s : AppState) (node : NodeData) (δ : ℝ)
    (hview : s.viewport = v) (h0 : 0 ≤ s.zoomProgress)
    (h200 : s.currentLayerIndex = 0 → s.zoomProgress ≤ 200)
    (hcap : s.currentLayerIndex ≠ 0 →
      s.zoomProgress ≤ maxProgressAt cfg v s.currentLayerIndex) :
    (handleZoomProgress cfg s node δ).1.viewport = v ∧
    0 ≤ (handleZoomProgress cfg s node δ).1.zoomProgress ∧
    ((handleZoomProgress cfg s node δ).1.currentLayerIndex = 0 →
      (handleZoomProgress cfg s node δ).1.zoomProgress ≤ 200) ∧
    ((handleZoomProgress cfg s node δ).1.currentLayerIndex ≠ 0 →
      (handleZoomProgress cfg s node δ).1.zoomProgress ≤
        maxProgressAt cfg v (handleZoomProgress cfg s node δ).1.currentLayerIndex) := by
  have np0 : 0 ≤ newProgressFn cfg s δ := newProgressFn_nonneg cfg v s δ hview H
  have np200 := newProgressFn_le_200 cfg s δ
  have npcap := newProgressFn_le_cap cfg s δ
  unfold handleZoomProgress
  by_cases h1 : s.isZooming = true
  · rw [if_pos h1]
    exact ⟨hview, h0, h200, hcap⟩
  rw [if_neg h1]
  by_cases h2 : 0 < δ ∧ node.children = none
  · rw [if_pos h2]
    exact ⟨hview, h0, h200, hcap⟩
  rw [if_neg h2]
  by_cases h3 : δ < 0 ∧ s.zoomProgress = 0 ∧ 0 < s.currentLayerIndex
  · rw [if_pos h3]
    have hr := reverse_preserves_zoom cfg s
    refine ⟨hr.2.2.trans hview, ?_, ?_, ?_⟩
    · rw [hr.1]; exact h0
    · intro _; rw [hr.1, h3.2.1]; norm_num
    · intro _; rw [hr.1, h3.2.1]; exact H _
  rw [if_neg h3]
  by_cases hs1c : 0 < δ ∧ s.zoomProgress = 0
  · simp only [if_pos hs1c]
    by_cases hcr : transitionThreshold s ≤ newProgressFn cfg s δ ∧
        s.zoomProgress < transitionThreshold s ∧ node.children ≠ none
    · rw [if_pos hcr]
      rcases silent_fields cfg
        { s with zoomingNode := some node, zoomProgress := newProgressFn cfg s δ }
        node with he | ⟨hz, hw⟩
      · rw [he]
        exact ⟨hview, np0, fun h => np200 h, fun h => hview ▸ npcap h⟩
      · refine ⟨hw.trans hview, ?_, ?_, ?_⟩
        · rw [hz]
        · intro _; rw [hz]; norm_num
        · intro _; rw [hz]; exact H _
    · rw [if_neg hcr]
      by_cases hz2 : newProgressFn cfg s δ = 0 ∧ 0 < s.zoomProgress ∧
          0 < s.currentLayerIndex
      · rw [if_pos hz2]
        have hr := reverse_preserves_zoom cfg
          { s with zoomingNode := none, zoomProgress := newProgressFn cfg s δ }
        refine ⟨hr.2.2.trans hview, ?_, ?_, ?_⟩
        · rw [hr.1]; exact np0
        · intro _; rw [hr.1]; show newProgressFn cfg s δ ≤ 200; rw [hz2.1]; norm_num
        · intro _; rw [hr.1]; show newProgressFn cfg s δ ≤ _; rw [hz2.1]; exact H _
      · rw [if_neg hz2]
        exact ⟨hview, np0, fun h => np200 h, fun h => hview ▸ npcap h⟩
  · simp only [if_neg hs1c]
    by_cases hcr : transitionThreshold s ≤ newProgressFn cfg s δ ∧
        s.zoomProgress < transitionThreshold s ∧ node.children ≠ none
    · rw [if_pos hcr]
      rcases silent_fields cfg { s with zoomProgress := newProgressFn cfg s δ }
        node with he | ⟨hz, hw⟩
      · rw [he]
        exact ⟨hview, np0, fun h => np200 h, fun h => hview ▸ npcap h⟩
      · refine ⟨hw.trans hview, ?_, ?_, ?_⟩
        · rw [hz]
        · intro _; rw [hz]; norm_num
        · intro _; rw [hz]; exact H _
    · rw [if_neg hcr]
      by_cases hz2 : newProgressFn cfg s δ = 0 ∧ 0 < s.zoomProgress ∧
          0 < s.currentLayerIndex
      · rw [if_pos hz2]
        have hr := reverse_preserves_zoom cfg
          { s with zoomingNode := none, zoomProgress := newProgressFn cfg s δ }
        refine ⟨hr.2.2.trans hview, ?_, ?_, ?_⟩
        · rw [hr.1]; exact np0
        · intro _; rw [hr.1]; show newProgressFn cfg s δ ≤ 200; rw [hz2.1]; norm_num
        · intro _; rw [hr.1]; show newProgressFn cfg s δ ≤ _; rw [hz2.1]; exact H _
      · rw [if_neg hz2]
        exact ⟨hview, np0, fun h => np200 h, fun h => hview ▸ npcap h⟩

theorem applyZoomCalls_inv (cfg : Config) (v : Viewport)
    (H : ∀ i, 0 ≤ maxProgressAt cfg v i) :
    ∀ (calls : List (NodeData × ℝ)) (s : AppState), s.viewport = v →
      0 ≤ s.zoomProgress →
      (s.currentLayerIndex = 0 → s.zoomProgress ≤ 200) →
      (s.currentLayerIndex ≠ 0 →
        s.zoomProgress ≤ maxProgressAt cfg v s.currentLayerIndex) →
      (applyZoomCalls cfg s calls).viewport = v ∧
      0 ≤ (applyZoomCalls cfg s calls).zoomProgress ∧
      ((applyZoomCalls cfg s calls).currentLayerIndex = 0 →
        (applyZoomCalls cfg s calls).zoomProgress ≤ 200) ∧
      ((applyZoomCalls cfg s calls).currentLayerIndex ≠ 0 →
        (applyZoomCalls cfg s calls).zoomProgress ≤
          maxProgressAt cfg v (applyZoomCalls cfg s calls).currentLayerIndex) := by
  intro calls
  induction calls with
  | nil =>
    intro s hview h0 h200 hcap
    exact ⟨hview, h0, h200, hcap⟩
  | cons c rest ih =>
    intro s hview h0 h200 hcap
    have hstep := zoomStep_inv cfg v H s c.1 c.2 hview h0 h200 hcap
    exact ih _ hstep.1 hstep.2.1 hstep.2.2.1 hstep.2.2.2

/-- Claim C4 (amended): for a viewport on which every layer's dynamically
computed `maxProgress` is nonnegative, every sequence of
`handleZoomProgress` calls from the mount state keeps `zoomProgress`
nonnegative, at most 200 on the root layer and at most `maxProgress` on
deeper layers.  (On viewports small enough to make `maxProgress` negative
the lower bound fails, see the counterexample.) -/
theorem C4_zoom_bounds (cfg : Config) (v : Viewport)
    (H : ∀ i, 0 ≤ maxProgressAt cfg v i) (calls : List (NodeData × ℝ)) :
    0 ≤ (applyZoomCalls cfg (initialState cfg v) calls).zoomProgress ∧
    ((applyZoomCalls cfg (initialState cfg v) calls).currentLayerIndex = 0 →
      (applyZoomCalls cfg (initialState cfg v) calls).zoomProgress ≤ 200) ∧
    ((applyZoomCalls cfg (initialState cfg v) calls).currentLayerIndex ≠ 0 →
      (applyZoomCalls cfg (initialState cfg v) calls).zoomProgress ≤
        maxProgressAt cfg v
          (applyZoomCalls cfg (initialState cfg v) calls).currentLayerIndex) := by
  have h := applyZoomCalls_inv cfg v H calls (initialState cfg v) rfl le_rfl
    (fun _ => by norm_num [initialState]) (fun h => absurd rfl h)
  exact ⟨h.2.1, h.2.2.1, h.2.2.2⟩

/-- On a viewport whose smaller dimension is at least 100 pixels, every
layer's `maxProgress` is nonnegative (the maximum node size exceeds the
scaled base size). -/
theorem maxProgressAt_nonneg (cfg : Config) (v : Viewport)
    (hv : 100 ≤ min v.width v.height) (i : ℕ) : 0 ≤ maxProgressAt cfg v i := by
  simp only [maxProgressAt]
  have hrs := scale_mem_Icc (some v)
    (some (cfg.layers.getD i emptyLayer).nodes) 165
  set rs := calculateResponsiveScale (some v)
    (some (cfg.layers.getD i emptyLayer).nodes) 165 with hrsdef
  have h1 : (0 : ℝ) < 165 * rs := by nlinarith [hrs.1]
  have h4 : (1 : ℝ) ≤ min v.width v.height * 0.95 * 1.75 / (165 * rs) := by
    rw [le_div_iff₀ h1]
    nlinarith [hrs.2]
  have h5 : (0 : ℝ) ≤ min v.width v.height * 0.95 * 1.75 / (165 * rs) - 1 := by
    linarith
  exact div_nonneg h5 (by norm_num)

/-- Witness for C4 (amended) on a 1000×1000 viewport with a single zoom
call. -/
theorem C4_zoom_bounds_witness :
    (∀ i, 0 ≤ maxProgressAt DEFAULT_CONFIG ⟨1000, 1000⟩ i) ∧
    0 ≤ (applyZoomCalls DEFAULT_CONFIG (initialState DEFAULT_CONFIG ⟨1000, 1000⟩)
      [(waterCycleNode, 50)]).zoomProgress := by
  have H : ∀ i, 0 ≤ maxProgressAt DEFAULT_CONFIG ⟨1000, 1000⟩ i := fun i =>
    maxProgressAt_nonneg DEFAULT_CONFIG ⟨1000, 1000⟩ (by norm_num) i
  exact ⟨H, (C4_zoom_bounds DEFAULT_CONFIG ⟨1000, 1000⟩ H
    [(waterCycleNode, 50)]).1⟩

/-- Counterexample to C4 as stated: on a 10×10 viewport, entering layer 1
and then zooming on "what is it ?" clamps `zoomProgress` to the *negative*
`maxProgress`, violating `0 ≤ zoomProgress`. -/
theorem C4_zoom_bounds_cex :
    (applyZoomCalls DEFAULT_CONFIG (initialState DEFAULT_CONFIG ⟨10, 10⟩)
      [(waterCycleNode, 600), (whatIsItNode, 50)]).zoomProgress < 0 := by
  have hd : nodeDistance ⟨10, 10⟩ whatIsItNode fourLayersNode = 1.4 := by
    rw [nodeDistance_eq]
    exact sqrt_eval (by norm_num) (by norm_num [whatIsItNode, fourLayersNode])
  have e1 : pairScale ⟨10, 10⟩ 165 whatIsItNode fourLayersNode 1 = 7 / 990 := by
    simp only [pairScale]
    rw [hd, if_pos (show (1.4 : ℝ) < 165 * 1.2 ∧ (0 : ℝ) < 1.4 by norm_num)]
    norm_num [min_def]
  have pw : pairwisePass ⟨10, 10⟩ 165 [whatIsItNode, fourLayersNode] 1 = 7 / 990 := by
    simp only [pairwisePass, pairInner]
    rw [e1]
  have b1 : boundaryStep ⟨10, 10⟩ 165 whatIsItNode (7 / 990) = 7 / 990 := by
    simp only [boundaryStep, whatIsItNode]
    norm_num
  have b2 : boundaryStep ⟨10, 10⟩ 165 fourLayersNode (7 / 990) = 7 / 990 := by
    simp only [boundaryStep, fourLayersNode]
    norm_num
  have hrs : calculateResponsiveScale (some ⟨10, 10⟩)
      (some [whatIsItNode, fourLayersNode]) 165 = 0.3 := by
    simp only [calculateResponsiveScale]
    rw [if_neg (by simp)]
    simp only [rawScale]
    rw [pw]
    simp only [boundaryPass]
    rw [b1, b2]
    norm_num [min_def, max_def]
  have hM : maxProgressAt DEFAULT_CONFIG ⟨10, 10⟩ 1 < 0 := by
    simp only [maxProgressAt, DEFAULT_CONFIG]
    simp only [List.getD_cons_succ, List.getD_cons_zero]
    rw [hrs]
    norm_num [min_def]
  have hnp : newProgressFn DEFAULT_CONFIG (scenarioAFinal DEFAULT_CONFIG ⟨10, 10⟩) 50 =
      maxProgressAt DEFAULT_CONFIG ⟨10, 10⟩ 1 := by
    simp only [newProgressFn, scenarioAFinal]
    rw [if_pos (by norm_num)]
    rw [max_eq_right (by norm_num)]
    exact min_eq_left (le_of_lt (lt_of_lt_of_le hM (by norm_num)))
  simp only [applyZoomCalls]
  rw [zoomCross (initialState DEFAULT_CONFIG ⟨10, 10⟩) ⟨10, 10⟩ 600 rfl rfl rfl
    rfl rfl le_rfl (by norm_num [initialState]) (by norm_num)
    (by norm_num [initialState])]
  have hch : (0 < (50 : ℝ) ∧ whatIsItNode.children = none) = False :=
    eq_false (by rintro ⟨-, h⟩; simp [whatIsItNode] at h)
  have hd0 : ((50 : ℝ) < 0 ∧
      (scenarioAFinal DEFAULT_CONFIG ⟨10, 10⟩).zoomProgress = 0 ∧
      0 < (scenarioAFinal DEFAULT_CONFIG ⟨10, 10⟩).currentLayerIndex) = False :=
    eq_false (by rintro ⟨h, -⟩; linarith)
  have hth : transitionThreshold (scenarioAFinal DEFAULT_CONFIG ⟨10, 10⟩) = 90 := by
    simp [transitionThreshold, scenarioAFinal]
  have hcr : (90 ≤ newProgressFn DEFAULT_CONFIG
        (scenarioAFinal DEFAULT_CONFIG ⟨10, 10⟩) 50 ∧
      (scenarioAFinal DEFAULT_CONFIG ⟨10, 10⟩).zoomProgress < 90 ∧
      ¬ whatIsItNode.children = none) = False :=
    eq_false (by rintro ⟨h, -⟩; rw [hnp] at h; linarith)
  have hz2 : (newProgressFn DEFAULT_CONFIG
        (scenarioAFinal DEFAULT_CONFIG ⟨10, 10⟩) 50 = 0 ∧
      0 < (scenarioAFinal DEFAULT_CONFIG ⟨10, 10⟩).zoomProgress ∧
      0 < (scenarioAFinal DEFAULT_CONFIG ⟨10, 10⟩).currentLayerIndex) = False :=
    eq_false (by
      rintro ⟨-, h, -⟩
      simp [scenarioAFinal] at h)
  have hs1 : (0 < (50 : ℝ) ∧
      (scenarioAFinal DEFAULT_CONFIG ⟨10, 10⟩).zoomProgress = 0) = True :=
    eq_true ⟨by norm_num, by simp [scenarioAFinal]⟩
  simp only [handleZoomProgress, hth, hch, hd0, hcr, hz2, hs1, if_true, if_false]
  rw [if_neg (by simp [scenarioAFinal])]
  rw [hnp]
  exact hM


/-! ## Threshold crossing (C8) and sticky zooming node (C10) -/

/-- Claim C8: with the transition lock free and an expandable node, the
forward (silent) transition fires on a `handleZoomProgress` call iff the
previous progress was strictly below the threshold and the computed updated
progress is at or above it; in particular nothing fires while progress
already sits at or above the threshold. -/
theorem C8_threshold_iff (cfg : Config) (s : AppState) (node : NodeData)
    (cid : String) (δ : ℝ) (hiz : s.isZooming = false)
    (hc : node.children = some cid) :
    ((handleZoomProgress cfg s node δ).2 = true ↔
      (s.zoomProgress < transitionThreshold s ∧
       transitionThreshold s ≤ newProgressFn cfg s δ)) ∧
    (transitionThreshold s ≤ s.zoomProgress →
      (handleZoomProgress cfg s node δ).2 = false) := by
  have hthpos : 0 < transitionThreshold s := by
    unfold transitionThreshold
    split_ifs <;> norm_num
  have hmain : (handleZoomProgress cfg s node δ).2 = true ↔
      (s.zoomProgress < transitionThreshold s ∧
       transitionThreshold s ≤ newProgressFn cfg s δ) := by
    unfold handleZoomProgress
    rw [if_neg (by rw [hiz]; simp)]
    rw [if_neg (by rintro ⟨-, h⟩; rw [hc] at h; exact Option.noConfusion h)]
    by_cases h3 : δ < 0 ∧ s.zoomProgress = 0 ∧ 0 < s.currentLayerIndex
    · rw [if_pos h3]
      have hle : newProgressFn cfg s δ ≤ 0 := by
        simp only [newProgressFn, h3.2.1]
        have hmax : max 0 (0 + δ * 0.15) = 0 :=
          max_eq_left (by nlinarith [h3.1])
        split_ifs with h
        · rw [hmax]; exact min_le_right _ _
        · rw [hmax]; exact min_le_right _ _
      simp only [Bool.false_eq_true, false_iff]
      rintro ⟨-, h2⟩
      linarith
    · rw [if_neg h3]
      by_cases hcr : transitionThreshold s ≤ newProgressFn cfg s δ ∧
          s.zoomProgress < transitionThreshold s ∧ node.children ≠ none
      · rw [if_pos hcr]
        simp only [true_iff]
        exact ⟨hcr.2.1, hcr.1⟩
      · rw [if_neg hcr]
        by_cases hz2 : newProgressFn cfg s δ = 0 ∧ 0 < s.zoomProgress ∧
            0 < s.currentLayerIndex
        · rw [if_pos hz2]
          simp only [Bool.false_eq_true, false_iff]
          rintro ⟨h1, h2⟩
          exact hcr ⟨h2, h1, by rw [hc]; simp⟩
        · rw [if_neg hz2]
          simp only [Bool.false_eq_true, false_iff]
          rintro ⟨h1, h2⟩
          exact hcr ⟨h2, h1, by rw [hc]; simp⟩
  refine ⟨hmain, fun habove => ?_⟩
  cases hb : (handleZoomProgress cfg s node δ).2 with
  | false => rfl
  | true =>
    have := hmain.mp hb
    linarith [this.1]

/-- Claim C10: a positive-delta zoom call on an expandable node `B` while
shared progress was accumulated on a different node `A` leaves
`zoomingNode = A`, still increases the shared `zoomProgress` (when below
the cap), and a threshold crossing caused by that call swaps into `B`'s
child layer. -/
theorem C10_sticky_zoom (cfg : Config) (s : AppState) (A B : NodeData)
    (cid : String) (target : ℕ) (δ : ℝ)
    (hiz : s.isZooming = false) (hp : 0 < s.zoomProgress)
    (hA : s.zoomingNode = some A) (hc : B.children = some cid)
    (ht : findLayerIndex cfg.layers cid = some target) (hδ : 0 < δ)
    (hcap : s.zoomProgress + δ * 0.15 ≤
      if s.currentLayerIndex = 0 then 200
      else maxProgressAt cfg s.viewport s.currentLayerIndex) :
    newProgressFn cfg s δ = s.zoomProgress + δ * 0.15 ∧
    s.zoomProgress < newProgressFn cfg s δ ∧
    (¬ (s.zoomProgress < transitionThreshold s ∧
        transitionThreshold s ≤ newProgressFn cfg s δ) →
      (handleZoomProgress cfg s B δ).1.zoomingNode = some A ∧
      (handleZoomProgress cfg s B δ).1.zoomProgress = newProgressFn cfg s δ) ∧
    ((s.zoomProgress < transitionThreshold s ∧
        transitionThreshold s ≤ newProgressFn cfg s δ) →
      (handleZoomProgress cfg s B δ).1.currentLayerIndex = target) := by
  have hnp : newProgressFn cfg s δ = s.zoomProgress + δ * 0.15 := by
    unfold newProgressFn
    by_cases h : 0 < s.currentLayerIndex
    · rw [if_neg (Nat.pos_iff_ne_zero.mp h)] at hcap
      rw [if_pos h, max_eq_right (by nlinarith), min_eq_right hcap]
    · have h0 : s.currentLayerIndex = 0 := Nat.eq_zero_of_not_pos h
      rw [if_pos h0] at hcap
      rw [if_neg h, max_eq_right (by nlinarith), min_eq_right hcap]
  have hinc : s.zoomProgress < newProgressFn cfg s δ := by
    rw [hnp]
    nlinarith
  unfold handleZoomProgress
  rw [if_neg (by rw [hiz]; simp)]
  rw [if_neg (by rintro ⟨-, h⟩; rw [hc] at h; exact Option.noConfusion h)]
  rw [if_neg (by rintro ⟨h, -⟩; linarith)]
  have hs1 : (0 < δ ∧ s.zoomProgress = 0) = False :=
    eq_false (by rintro ⟨-, h⟩; exact (ne_of_gt hp) h)
  simp only [hs1, if_false]
  refine ⟨hnp, hinc, ?_, ?_⟩
  · intro hnc
    rw [if_neg (by rintro ⟨h1, h2, -⟩; exact hnc ⟨h2, h1⟩)]
    rw [if_neg (by rintro ⟨h1, -⟩; rw [hnp] at h1; nlinarith)]
    exact ⟨hA, rfl⟩
  · intro hcr
    rw [if_pos ⟨hcr.2, hcr.1, by rw [hc]; simp⟩]
    show (handleSilentLayerTransition cfg _ B).currentLayerIndex = target
    unfold handleSilentLayerTransition
    simp [hc, ht]

/-- Witness for C10 on a root-layer state with progress 50 accumulated on
the "water cycle" node. -/
theorem C10_sticky_zoom_witness :
    (rootZoomState DEFAULT_CONFIG ⟨1000, 800⟩ 50).isZooming = false ∧
    0 < (rootZoomState DEFAULT_CONFIG ⟨1000, 800⟩ 50).zoomProgress ∧
    newProgressFn DEFAULT_CONFIG (rootZoomState DEFAULT_CONFIG ⟨1000, 800⟩ 50) 10 =
      (rootZoomState DEFAULT_CONFIG ⟨1000, 800⟩ 50).zoomProgress + 10 * 0.15 := by
  have h := C10_sticky_zoom DEFAULT_CONFIG
    (rootZoomState DEFAULT_CONFIG ⟨1000, 800⟩ 50) waterCycleNode waterCycleNode
    "layer-2" 1 10 rfl (by norm_num [rootZoomState, initialState]) rfl rfl
    (by simp [findLayerIndex, DEFAULT_CONFIG]) (by norm_num)
    (by simp [rootZoomState, initialState]; norm_num)
  exact ⟨rfl, by norm_num [rootZoomState, initialState], h.1⟩

/-- Witness for C8 on the mount state with an expandable node. -/
theorem C8_threshold_iff_witness :
    (initialState DEFAULT_CONFIG ⟨1000, 800⟩).isZooming = false ∧
    waterCycleNode.children = some "layer-2" ∧
    ((handleZoomProgress DEFAULT_CONFIG (initialState DEFAULT_CONFIG ⟨1000, 800⟩)
        waterCycleNode 600).2 = true ↔
      ((initialState DEFAULT_CONFIG ⟨1000, 800⟩).zoomProgress <
        transitionThreshold (initialState DEFAULT_CONFIG ⟨1000, 800⟩) ∧
       transitionThreshold (initialState DEFAULT_CONFIG ⟨1000, 800⟩) ≤
        newProgressFn DEFAULT_CONFIG (initialState DEFAULT_CONFIG ⟨1000, 800⟩) 600)) :=
  ⟨rfl, rfl,
   (C8_threshold_iff DEFAULT_CONFIG (initialState DEFAULT_CONFIG ⟨1000, 800⟩)
     waterCycleNode "layer-2" 600 rfl rfl).1⟩


/-! ## History invariant (C9) -/

theorem reverse_history (cfg : Config) (s : AppState) :
    (handleReverseLayerTransition cfg s).history = s.history ∨
    (1 < s.history.length ∧
     (handleReverseLayerTransition cfg s).history = s.history.dropLast) := by
  unfold handleReverseLayerTransition
  split_ifs with h
  · exact Or.inl rfl
  · push_neg at h
    match hg : s.history.get? (s.history.length - 2) with
    | none => exact Or.inl rfl
    | some prevEntry => exact Or.inr ⟨h.2, rfl⟩

theorem silent_history (cfg : Config) (s : AppState) (node : NodeData) :
    (handleSilentLayerTransition cfg s node).history = s.history ∨
    ∃ en, (handleSilentLayerTransition cfg s node).history = s.history ++ [en] := by
  cases hc : node.children with
  | none =>
    left
    unfold handleSilentLayerTransition
    simp [hc]
  | some cid =>
    cases hf : findLayerIndex cfg.layers cid with
    | none =>
      left
      unfold handleSilentLayerTransition
      simp [hc, hf]
    | some t =>
      unfold handleSilentLayerTransition
      simp only [hc, hf]
      cases hl : s.history.getLast? with
      | none =>
        refine Or.inr ⟨⟨t, node.color.getD (currentLayerOf cfg s).color,
          (cfg.layers.getD t emptyLayer).name,
          node.color.getD (currentLayerOf cfg s).color, some node⟩, ?_⟩
        simp only [hl]
      | some last =>
        by_cases he : last.layerIndex = t
        · exact Or.inl (by simp [hl, he])
        · refine Or.inr ⟨⟨t, node.color.getD (currentLayerOf cfg s).color,
            (cfg.layers.getD t emptyLayer).name,
            node.color.getD (currentLayerOf cfg s).color, some node⟩, ?_⟩
          simp only [hl]
          rw [if_neg he]

theorem zoom_history (cfg : Config) (s : AppState) (node : NodeData) (δ : ℝ) :
    (handleZoomProgress cfg s node δ).1.history = s.history ∨
    (1 < s.history.length ∧
      (handleZoomProgress cfg s node δ).1.history = s.history.dropLast) ∨
    ∃ en, (handleZoomProgress cfg s node δ).1.history = s.history ++ [en] := by
  unfold handleZoomProgress
  by_cases h1 : s.isZooming = true
  · rw [if_pos h1]
    exact Or.inl rfl
  rw [if_neg h1]
  by_cases h2 : 0 < δ ∧ node.children = none
  · rw [if_pos h2]
    exact Or.inl rfl
  rw [if_neg h2]
  by_cases h3 : δ < 0 ∧ s.zoomProgress = 0 ∧ 0 < s.currentLayerIndex
  · rw [if_pos h3]
    rcases reverse_history cfg s with h | ⟨hl, h⟩
    · exact Or.inl h
    · exact Or.inr (Or.inl ⟨hl, h⟩)
  rw [if_neg h3]
  by_cases hs1c : 0 < δ ∧ s.zoomProgress = 0
  · simp only [if_pos hs1c]
    by_cases hcr : transitionThreshold s ≤ newProgressFn cfg s δ ∧
        s.zoomProgress < transitionThreshold s ∧ node.children ≠ none
    · rw [if_pos hcr]
      rcases silent_history cfg
        { s with zoomingNode := some node, zoomProgress := newProgressFn cfg s δ }
        node with h | ⟨en, h⟩
      · exact Or.inl h
      · exact Or.inr (Or.inr ⟨en, h⟩)
    · rw [if_neg hcr]
      by_cases hz2 : newProgressFn cfg s δ = 0 ∧ 0 < s.zoomProgress ∧
          0 < s.currentLayerIndex
      · rw [if_pos hz2]
        rcases reverse_history cfg
          { s with zoomingNode := none, zoomProgress := newProgressFn cfg s δ }
          with h | ⟨hl, h⟩
        · exact Or.inl h
        · exact Or.inr (Or.inl ⟨hl, h⟩)
      · rw [if_neg hz2]
        exact Or.inl rfl
  · simp only [if_neg hs1c]
    by_cases hcr : transitionThreshold s ≤ newProgressFn cfg s δ ∧
        s.zoomProgress < transitionThreshold s ∧ node.children ≠ none
    · rw [if_pos hcr]
      rcases silent_history cfg
        { s with zoomProgress := newProgressFn cfg s δ } node with h | ⟨en, h⟩
      · exact Or.inl h
      · exact Or.inr (Or.inr ⟨en, h⟩)
    · rw [if_neg hcr]
      by_cases hz2 : newProgressFn cfg s δ = 0 ∧ 0 < s.zoomProgress ∧
          0 < s.currentLayerIndex
      · rw [if_pos hz2]
        rcases reverse_history cfg
          { s with zoomingNode := none, zoomProgress := newProgressFn cfg s δ }
          with h | ⟨hl, h⟩
        · exact Or.inl h
        · exact Or.inr (Or.inl ⟨hl, h⟩)
      · rw [if_neg hz2]
        exact Or.inl rfl

theorem click_history (cfg : Config) (s : AppState) (node : NodeData) :
    (handleNodeClick cfg s node).history = s.history ∨
    ∃ en, (handleNodeClick cfg s node).history = s.history ++ [en] := by
  unfold handleNodeClick
  by_cases hg : node.children = none ∨ s.isZooming = true
  · rw [if_pos hg]
    exact Or.inl rfl
  · rw [if_neg hg]
    cases hc : node.children with
    | none =>
      left
      simp [hc]
    | some cid =>
      cases hf : findLayerIndex cfg.layers cid with
      | none =>
        left
        simp [hc, hf]
      | some t =>
        refine Or.inr ⟨⟨t, node.color.getD (currentLayerOf cfg s).color,
          (cfg.layers.getD t emptyLayer).name,
          node.color.getD (currentLayerOf cfg s).color, some node⟩, ?_⟩
        simp only [hc, hf]

theorem home_history (cfg : Config) (s : AppState) :
    (handleHome cfg s).history = s.history ∨
    (handleHome cfg s).history = [rootEntry cfg] := by
  unfold handleHome
  split_ifs with h
  · exact Or.inl rfl
  · exact Or.inr rfl

theorem navigate_history (cfg : Config) (s : AppState) (i : ℕ) :
    (handleNavigate cfg s i).history = s.history ∨
    (handleNavigate cfg s i).history = s.history.take (i + 1) := by
  unfold handleNavigate
  split_ifs with h h2
  · exact Or.inl rfl
  · match hg : s.history.get? i with
    | none => exact Or.inl rfl
    | some target => exact Or.inr rfl
  · match hg : s.history.get? i with
    | none => exact Or.inl rfl
    | some target => exact Or.inr rfl

theorem canvas_history (s : AppState) :
    (handleCanvasClick s).history = s.history := by
  unfold handleCanvasClick
  split_ifs with h <;> rfl

theorem reverseEvent_history (cfg : Config) (s : AppState) :
    (reverseEvent cfg s).history = s.history ∨
    (1 < s.history.length ∧ (reverseEvent cfg s).history = s.history.dropLast) := by
  unfold reverseEvent
  split_ifs with h
  · exact reverse_history cfg s
  · exact Or.inl rfl

theorem goBack_history (cfg : Config) (s : AppState) :
    (goBackEvent cfg s).history = s.history ∨
    (1 < s.history.length ∧ (goBackEvent cfg s).history = s.history.dropLast) := by
  unfold goBackEvent
  split_ifs with h
  · match hg : s.history.get? (s.history.length - 2) with
    | none => exact Or.inl rfl
    | some prevEntry => exact Or.inr ⟨h.1, rfl⟩
  · exact Or.inl rfl

theorem step_preserves_histInv (cfg : Config) (s t : AppState)
    (hstep : Step cfg s t)
    (hinv : ∃ e tl, s.history = e :: tl ∧ e.layerIndex = 0) :
    ∃ e tl, t.history = e :: tl ∧ e.layerIndex = 0 := by
  obtain ⟨e, tl, hh, he⟩ := hinv
  have hdrop : 1 < s.history.length → s.history.dropLast = e :: tl.dropLast := by
    intro hl
    rw [hh] at hl ⊢
    cases tl with
    | nil => simp at hl
    | cons x xs => rfl
  have happend : ∀ en, s.history ++ [en] = e :: (tl ++ [en]) := by
    intro en
    rw [hh]
    rfl
  have htake : ∀ i, s.history.take (i + 1) = e :: tl.take i := by
    intro i
    rw [hh]
    rfl
  cases hstep with
  | zoom node δ =>
    rcases zoom_history cfg s node δ with h | ⟨hl, h⟩ | ⟨en, h⟩
    · exact ⟨e, tl, h.trans hh, he⟩
    · exact ⟨e, tl.dropLast, h.trans (hdrop hl), he⟩
    · exact ⟨e, tl ++ [en], h.trans (happend en), he⟩
  | click node =>
    rcases click_history cfg s node with h | ⟨en, h⟩
    · exact ⟨e, tl, h.trans hh, he⟩
    · exact ⟨e, tl ++ [en], h.trans (happend en), he⟩
  | reverse =>
    rcases reverseEvent_history cfg s with h | ⟨hl, h⟩
    · exact ⟨e, tl, h.trans hh, he⟩
    · exact ⟨e, tl.dropLast, h.trans (hdrop hl), he⟩
  | goBack =>
    rcases goBack_history cfg s with h | ⟨hl, h⟩
    · exact ⟨e, tl, h.trans hh, he⟩
    · exact ⟨e, tl.dropLast, h.trans (hdrop hl), he⟩
  | home =>
    rcases home_history cfg s with h | h
    · exact ⟨e, tl, h.trans hh, he⟩
    · exact ⟨rootEntry cfg, [], h, rfl⟩
  | navigate i =>
    rcases navigate_history cfg s i with h | h
    · exact ⟨e, tl, h.trans hh, he⟩
    · exact ⟨e, tl.take i, h.trans (htake i), he⟩
  | canvas =>
    exact ⟨e, tl, (canvas_history s).trans hh, he⟩

/-- Claim C9: in every state reachable from the mount state by dispatched
interaction events, the history stack is non-empty and its first entry
records the root layer index 0. -/
theorem C9_history_inv (cfg : Config) (v : Viewport) (s : AppState)
    (h : Reachable cfg v s) :
    ∃ e tl, s.history = e :: tl ∧ e.layerIndex = 0 := by
  induction h with
  | refl => exact ⟨rootEntry cfg, [], rfl, rfl⟩
  | tail hsteps hstep ih => exact step_preserves_histInv cfg _ _ hstep ih

/-- Witness for C9 at the mount state itself. -/
theorem C9_history_inv_witness :
    Reachable DEFAULT_CONFIG ⟨1000, 800⟩ (initialState DEFAULT_CONFIG ⟨1000, 800⟩) ∧
    ∃ e tl, (initialState DEFAULT_CONFIG ⟨1000, 800⟩).history = e :: tl ∧
      e.layerIndex = 0 :=
  ⟨Relation.ReflTransGen.refl,
   C9_history_inv DEFAULT_CONFIG ⟨1000, 800⟩ _ Relation.ReflTransGen.refl⟩

end MLViz
